import Mathlib

/-!
# Shared memory management (src/runtime/shared_mem.cc)

A shallow embedding of the POSIX build (the branch taken when _WIN32 is not
defined) of the class SharedMemory and of the class SharedMemoryResource, over an
explicit model of the part of the operating system the code talks to: the
namespace of named shared-memory objects, the descriptor table of the process,
its mapped pages, and the process-wide resource manager.

Every operation also appends the calls it issues to a trace, so that the order
and the number of the calls can be stated. The LOG(INFO) lines of the source
write a message and nothing else; they are left out.

A CHECK_NE that fails is fatal: the member function ends with the message of
the check as an error result, and a process in which that happened does
nothing more. The system calls follow POSIX; what can make them fail is kept
in the state of the operating system (what the process may do with an object,
names that may not be created, the umask and the descriptor limit of the
process, the largest length of an object, the pages that may still be
mapped). The resource manager (resource_manager.h) is not part of the sources
at hand and is modelled from the specification of the repository.
-/

namespace dgl.runtime

/-! ## Constants of the system headers (Linux values) -/

def O_RDONLY : Nat := 0
def O_RDWR : Nat := 2
def O_ACCMODE : Nat := 3
def O_CREAT : Nat := 64
def S_IRUSR : Nat := 256
def S_IWUSR : Nat := 128
def PROT_READ : Nat := 1
def PROT_WRITE : Nat := 2
def MAP_SHARED : Nat := 1
def PAGE_SIZE : Nat := 4096

/-- The null pointer. -/
def nullptr : Nat := 0

/-- The value mmap returns on failure, (void * ) -1 on a 64-bit machine. -/
def MAP_FAILED : Nat := 2 ^ 64 - 1

/-- First page the kernel hands out to mmap with a null hint (the low 64 KiB are
never mapped). -/
def MMAP_MIN_PAGE : Nat := 16

/-- Last page (exclusive) of the user address space, 2 ^ 47 bytes. -/
def USER_PAGES : Nat := 2 ^ 35

/-! ## The operating system -/

/-- A named shared-memory object that is linked in the namespace. The
booleans say what this process may do with it: open it for reading, open it
for writing, and unlink it (in a sticky directory such as /dev/shm a process
may not unlink the object of another user). -/
structure ShmObject where
  name : String
  ino : Nat
  length : Nat
  readable : Bool
  writable : Bool
  removable : Bool
deriving DecidableEq, Repr

/-- An entry of the descriptor table of the process. -/
structure OpenFile where
  fd : Nat
  ino : Nat
  writable : Bool
deriving DecidableEq, Repr

/-- One mapped page of the process: its page number and the object behind it. -/
structure MappedPage where
  page : Nat
  ino : Nat
deriving DecidableEq, Repr

/-- The state of the operating system as far as the code can observe it.
The last five fields are what makes the calls fail or changes their effect:
the names the process may not create, the largest length an object may be
given, the number of pages the process may still map, the file mode creation
mask of the process, and the limit on its descriptors (a descriptor is a
number below the limit). -/
structure Kernel where
  objects : List ShmObject
  files : List OpenFile
  pages : List MappedPage
  nextIno : Nat
  mapTop : Nat
  noCreate : List String
  maxLength : Nat
  pageLimit : Nat
  umask : Nat
  maxFiles : Nat
deriving DecidableEq, Repr

/-- The object linked under a name, if any. -/
def Kernel.lookup (k : Kernel) (name : String) : Option ShmObject :=
  k.objects.find? (fun o => o.name == name)

/-- The entry of the descriptor table for a C descriptor, if it is open. -/
def Kernel.file (k : Kernel) (fd : Int) : Option OpenFile :=
  k.files.find? (fun f => (f.fd : Int) == fd)

/-- The lowest number from n on that is not in the list, looking at no more
candidates than the fuel allows. -/
def lowestFree (used : List Nat) : Nat → Nat → Nat
  | 0, n => n
  | fuel + 1, n => if used.contains n then lowestFree used fuel (n + 1) else n

/-- The lowest descriptor number that is not open. -/
def Kernel.freeFd (k : Kernel) : Nat :=
  lowestFree (k.files.map (fun f => f.fd)) k.files.length 0

/-- Whether the process may be given one more descriptor. -/
def Kernel.hasFreeFd (k : Kernel) : Bool :=
  decide (k.freeFd < k.maxFiles)

/-- shm_open(name, oflag, mode): opens the object linked under name, creating it
when it is absent and O_CREAT is given. Returns the lowest free descriptor, or
-1: when the process may not open the object in the mode asked (EACCES), when
the object is absent and is not to be or may not be created (ENOENT, EACCES),
or when the descriptor table is full (EMFILE). A created object belongs to
the process, which may unlink it, and gets the permission bits of mode that
the umask of the process does not clear; the descriptor of the creating call
has the access asked whatever those bits are. -/
def Kernel.shm_open (k : Kernel) (name : String) (oflag mode : Nat) : Int × Kernel :=
  let wr := (oflag &&& O_ACCMODE) == O_RDWR
  match k.lookup name with
  | some o =>
    if o.readable && (!wr || o.writable) && k.hasFreeFd then
      let fd := k.freeFd
      ((fd : Int), { k with files := k.files ++ [⟨fd, o.ino, wr⟩] })
    else (-1, k)
  | none =>
    if (oflag &&& O_CREAT) != 0 && !(k.noCreate.contains name) && k.hasFreeFd then
      let fd := k.freeFd
      let o : ShmObject :=
        ⟨name, k.nextIno, 0,
         (mode &&& S_IRUSR) != 0 && (k.umask &&& S_IRUSR) == 0,
         (mode &&& S_IWUSR) != 0 && (k.umask &&& S_IWUSR) == 0,
         true⟩
      ((fd : Int), { k with objects := k.objects ++ [o]
                            files := k.files ++ [⟨fd, k.nextIno, wr⟩]
                            nextIno := k.nextIno + 1 })
    else (-1, k)

/-- ftruncate(fd, length): gives the object behind fd the length. Fails when fd
is not open for writing, when the length does not fit a signed 64-bit off_t,
or when it exceeds the limit of the system. -/
def Kernel.ftruncate (k : Kernel) (fd : Int) (length : Nat) : Int × Kernel :=
  match k.file fd with
  | some f =>
    if f.writable && decide (length < 2 ^ 63) && decide (length ≤ k.maxLength) then
      (0, { k with objects :=
                k.objects.map (fun o => if o.ino = f.ino then { o with length := length } else o) })
    else (-1, k)
  | none => (-1, k)

/-- Number of pages a mapping of the given length takes. -/
def pagesOf (length : Nat) : Nat := (length + (PAGE_SIZE - 1)) / PAGE_SIZE

/-- mmap(addr, length, prot, flags, fd, offset): maps the object behind fd at an
address the kernel chooses (without MAP_FIXED the address given is a hint, and
the code gives none). Fails (MAP_FAILED) when the length is 0, when the offset
is not a multiple of the page size, when fd is not open, when a shared
writable mapping is asked on a descriptor not open for writing, or when the
pages are not available. -/
def Kernel.mmap (k : Kernel) (_addr length prot flags : Nat) (fd : Int) (offset : Nat) :
    Nat × Kernel :=
  match k.file fd with
  | some f =>
    let n := pagesOf length
    let first := MMAP_MIN_PAGE + k.mapTop
    if decide (0 < length) && decide (offset % PAGE_SIZE = 0)
        && (((prot &&& PROT_WRITE) == 0) || ((flags &&& MAP_SHARED) == 0) || f.writable)
        && decide (n ≤ k.pageLimit) && decide (first + n ≤ USER_PAGES) then
      (PAGE_SIZE * first,
       { k with pages := k.pages ++ (List.range n).map (fun i => ⟨first + i, f.ino⟩)
                mapTop := k.mapTop + n
                pageLimit := k.pageLimit - n })
    else (MAP_FAILED, k)
  | none => (MAP_FAILED, k)

/-- munmap(addr, length): removes the mappings of the pages that lie in the range.
Fails when the length is 0 or the address is not a multiple of the page size. -/
def Kernel.munmap (k : Kernel) (addr length : Nat) : Int × Kernel :=
  if decide (0 < length) && decide (addr % PAGE_SIZE = 0) then
    let first := addr / PAGE_SIZE
    let n := pagesOf length
    let gone := k.pages.filter (fun p => decide (first ≤ p.page) && decide (p.page < first + n))
    (0, { k with pages := k.pages.filter
                   (fun p => !(decide (first ≤ p.page) && decide (p.page < first + n)))
                 pageLimit := k.pageLimit + gone.length })
  else (-1, k)

/-- close(fd): removes fd from the descriptor table. Fails when fd is not open. -/
def Kernel.close (k : Kernel) (fd : Int) : Int × Kernel :=
  match k.file fd with
  | some _ => (0, { k with files := k.files.filter (fun f => !((f.fd : Int) == fd)) })
  | none => (-1, k)

/-- shm_unlink(name): removes the name from the namespace. Fails when no object
is linked under the name (ENOENT) and when the process may not unlink the
object (EACCES, EPERM). -/
def Kernel.shm_unlink (k : Kernel) (name : String) : Int × Kernel :=
  match k.lookup name with
  | some o =>
    if o.removable then
      (0, { k with objects := k.objects.filter (fun o => !(o.name == name)) })
    else (-1, k)
  | none => (-1, k)

/-! ## The resource manager -/

/-- The class SharedMemoryResource: the resource kept by the resource manager
for a shared memory. It holds the name and nothing else. -/
structure SharedMemoryResource where
  name : String
deriving DecidableEq, Repr

/-- A call issued by the code, with its arguments and its return value. -/
inductive Event where
  | shm_open (name : String) (oflag mode : Nat) (ret : Int)
  | ftruncate (fd : Int) (length : Nat) (ret : Int)
  | mmap (addr length prot flags : Nat) (fd : Int) (offset : Nat) (ret : Nat)
  | munmap (addr length : Nat) (ret : Int)
  | close (fd : Int) (ret : Int)
  | shm_unlink (name : String) (ret : Int)
  | AddResource (name : String)
  | DeleteResource (name : String)
deriving DecidableEq, Repr

/-- Everything outside the handles: the operating system, the entries of the
process-wide resource manager, and the calls issued so far (oldest first). -/
structure World where
  kernel : Kernel
  resources : List (String × SharedMemoryResource)
  trace : List Event
deriving DecidableEq, Repr

/-! The system calls as the code issues them: the call on the operating system,
recorded in the trace with its return value. -/

def shm_open (name : String) (oflag mode : Nat) (w : World) : Int × World :=
  let r := w.kernel.shm_open name oflag mode
  (r.1, { w with kernel := r.2, trace := w.trace ++ [Event.shm_open name oflag mode r.1] })

def ftruncate (fd : Int) (length : Nat) (w : World) : Int × World :=
  let r := w.kernel.ftruncate fd length
  (r.1, { w with kernel := r.2, trace := w.trace ++ [Event.ftruncate fd length r.1] })

def mmap (addr length prot flags : Nat) (fd : Int) (offset : Nat) (w : World) : Nat × World :=
  let r := w.kernel.mmap addr length prot flags fd offset
  (r.1, { w with kernel := r.2
                 trace := w.trace ++ [Event.mmap addr length prot flags fd offset r.1] })

def munmap (addr length : Nat) (w : World) : Int × World :=
  let r := w.kernel.munmap addr length
  (r.1, { w with kernel := r.2, trace := w.trace ++ [Event.munmap addr length r.1] })

def close (fd : Int) (w : World) : Int × World :=
  let r := w.kernel.close fd
  (r.1, { w with kernel := r.2, trace := w.trace ++ [Event.close fd r.1] })

def shm_unlink (name : String) (w : World) : Int × World :=
  let r := w.kernel.shm_unlink name
  (r.1, { w with kernel := r.2, trace := w.trace ++ [Event.shm_unlink name r.1] })

/-- Whether the resource manager holds an entry for the name. -/
def World.registered (w : World) (name : String) : Bool :=
  w.resources.any (fun e => e.1 == name)

/-- Modelled from the spec: AddResource of resource_manager.h, which is not among
the sources. Register(name, destroyCapability) is an idempotent-safe insertion
keyed by the name: a name already present keeps its single entry. -/
def AddResource (name : String) (res : SharedMemoryResource) (w : World) : World :=
  { w with resources := if w.registered name then w.resources else w.resources ++ [(name, res)]
           trace := w.trace ++ [Event.AddResource name] }

/-- Modelled from the spec: DeleteResource of resource_manager.h, which is not
among the sources. Deregister(name) removes the entry if present; for a name
not present it is a no-op. -/
def DeleteResource (name : String) (w : World) : World :=
  { w with resources := w.resources.filter (fun e => !(e.1 == name))
           trace := w.trace ++ [Event.DeleteResource name] }

/-- SharedMemoryResource::Destroy. -/
def SharedMemoryResource.Destroy (self : SharedMemoryResource) (w : World) : World :=
  (shm_unlink self.name w).2

/-- Modelled from the spec: the crash-path cleanup of the resource manager, whose
code is not among the sources. It invokes the destroy capability of every entry
still registered, and the entries are gone afterwards (entry removal and
reclamation are coupled). -/
def Cleanup (w : World) : World :=
  { (w.resources.foldl (fun v e => e.2.Destroy v) w) with resources := [] }

/-! ## The class SharedMemory -/

/-- The fields of a SharedMemory object. -/
structure SharedMemory where
  name : String
  own : Bool
  fd : Int
  ptr : Nat
  size : Nat
deriving DecidableEq, Repr

/-- What a member function leaves behind: its return value, or the message of
the CHECK that failed (a fatal error), together with the object and the world
as they are at that point. -/
structure Outcome (α : Type) where
  ret : Except String α
  self : SharedMemory
  world : World

/-- SharedMemory::SharedMemory(name). -/
def SharedMemory.ctor (name : String) : SharedMemory :=
  { name := name, own := false, fd := -1, ptr := nullptr, size := 0 }

/-- SharedMemory::~SharedMemory(). -/
def SharedMemory.dtor (self : SharedMemory) (w : World) : World :=
  let w := (munmap self.ptr self.size w).2
  let w := (close self.fd w).2
  if self.own then
    let w := (shm_unlink self.name w).2
    DeleteResource self.name w
  else w

/-- SharedMemory::CreateNew(size). The parameter hides the field of the same
name, which the function never assigns. -/
def SharedMemory.CreateNew (self : SharedMemory) (size : Nat) (w : World) : Outcome Nat :=
  let self := { self with own := true }
  let flag := O_RDWR ||| O_CREAT
  let r := shm_open self.name flag (S_IRUSR ||| S_IWUSR) w
  let self := { self with fd := r.1 }
  if r.1 = -1 then ⟨.error "fail to open", self, r.2⟩ else
  let w := AddResource self.name ⟨self.name⟩ r.2
  let res := ftruncate self.fd size w
  if res.1 = -1 then ⟨.error "Failed to truncate the file.", self, res.2⟩ else
  let m := mmap nullptr size (PROT_READ ||| PROT_WRITE) MAP_SHARED self.fd 0 res.2
  let self := { self with ptr := m.1 }
  if m.1 = MAP_FAILED then ⟨.error "Failed to map shared memory.", self, m.2⟩ else
  ⟨.ok self.ptr, self, m.2⟩

/-- SharedMemory::Open(size). -/
def SharedMemory.Open (self : SharedMemory) (size : Nat) (w : World) : Outcome Nat :=
  let flag := O_RDWR
  let r := shm_open self.name flag (S_IRUSR ||| S_IWUSR) w
  let self := { self with fd := r.1 }
  if r.1 = -1 then ⟨.error "fail to open", self, r.2⟩ else
  let m := mmap nullptr size (PROT_READ ||| PROT_WRITE) MAP_SHARED self.fd 0 r.2
  let self := { self with ptr := m.1 }
  if m.1 = MAP_FAILED then ⟨.error "Failed to map shared memory.", self, m.2⟩ else
  ⟨.ok self.ptr, self, m.2⟩

/-- SharedMemory::Exist(name), a static member. -/
def SharedMemory.Exist (name : String) (w : World) : Except String Bool × World :=
  let r := shm_open name O_RDONLY (S_IRUSR ||| S_IWUSR) w
  if r.1 ≥ 0 then
    (.ok true, (close r.1 r.2).2)
  else
    (.ok false, r.2)

/-! ## A process using handles -/

/-- An operation of a client of the class on its handles; a handle is named by
the position it got when it was constructed. Destroy is the destructor. -/
inductive Op where
  | Construct (name : String)
  | CreateNew (h : Nat) (size : Nat)
  | Open (h : Nat) (size : Nat)
  | Destroy (h : Nat)
deriving DecidableEq, Repr

/-- A process: the world, its handles (a destroyed handle leaves an empty
slot), and whether a fatal error has ended it. -/
structure Process where
  world : World
  handles : List (Option SharedMemory)
  dead : Bool

/-- The handle in a slot, if it is live. -/
def Process.handle (p : Process) (h : Nat) : Option SharedMemory :=
  (p.handles.getD h none)

/-- The process after a member function returned. -/
def Process.after (p : Process) (h : Nat) (o : Outcome Nat) : Process :=
  { world := o.world
    handles := p.handles.set h (some o.self)
    dead := match o.ret with
      | .ok _ => false
      | .error _ => true }

/-- One operation. A dead process does nothing more, and an operation on a slot
that holds no live handle does nothing. -/
def Process.step (p : Process) (op : Op) : Process :=
  if p.dead then p else
  match op with
  | .Construct name => { p with handles := p.handles ++ [some (SharedMemory.ctor name)] }
  | .CreateNew h size =>
    match p.handle h with
    | some s => p.after h (s.CreateNew size p.world)
    | none => p
  | .Open h size =>
    match p.handle h with
    | some s => p.after h (s.Open size p.world)
    | none => p
  | .Destroy h =>
    match p.handle h with
    | some s => { p with world := s.dtor p.world, handles := p.handles.set h none }
    | none => p

/-- A sequence of operations. -/
def Process.run (p : Process) (ops : List Op) : Process :=
  ops.foldl Process.step p

/-- A fresh process on a given operating system: no handle, no registered
resource, no call issued. -/
def Process.start (k : Kernel) : Process :=
  { world := { kernel := k, resources := [], trace := [] }, handles := [], dead := false }

/-- Number of shm_unlink calls issued for a name. -/
def unlinks (name : String) (t : List Event) : Nat :=
  t.countP (fun e => match e with
    | .shm_unlink n _ => n == name
    | _ => false)

/-- Number of AddResource calls issued for a name. -/
def registrations (name : String) (t : List Event) : Nat :=
  t.countP (fun e => match e with
    | .AddResource n => n == name
    | _ => false)

/-- An operating system with nothing in it, the usual umask 022 and generous
limits. -/
def Kernel.empty : Kernel :=
  { objects := [], files := [], pages := [], nextIno := 1, mapTop := 0,
    noCreate := [], maxLength := 2 ^ 40, pageLimit := 2 ^ 20,
    umask := 18, maxFiles := 1024 }

/-! ## Notions used in the statements -/

/-- An object is linked under the name. -/
def Kernel.linked (k : Kernel) (name : String) : Prop :=
  ∃ o, k.lookup name = some o

/-- The name is linked and this process may open its object for reading. -/
def Kernel.visible (k : Kernel) (name : String) : Prop :=
  ∃ o, k.lookup name = some o ∧ o.readable = true

/-- The process may unlink whatever is linked under the name: a shm_unlink of
the name is not refused. -/
def Kernel.unlinkable (k : Kernel) (name : String) : Prop :=
  ∀ o, k.lookup name = some o → o.removable = true

/-- The registry after a registration of the name. -/
def World.added (w : World) (name : String) : List (String × SharedMemoryResource) :=
  if w.registered name then w.resources else w.resources ++ [(name, ⟨name⟩)]

/-- Every entry of the resource manager is keyed by the name its resource
holds, as are the entries CreateNew makes. -/
def World.resourcesOk (w : World) : Prop :=
  ∀ e ∈ w.resources, e.2.name = e.1

/-- An operating system in which another process has created the object "graph-buf". -/
def Kernel.shared : Kernel :=
  { Kernel.empty with objects := [⟨"graph-buf", 1, 1048576, true, true, true⟩], nextIno := 2 }

/-- An empty system whose process runs with umask 0400: what it creates is not
readable by its owner. -/
def Kernel.masked : Kernel :=
  { Kernel.empty with umask := 256 }

/-- An empty system whose process may hold one descriptor only. -/
def Kernel.oneFile : Kernel :=
  { Kernel.empty with maxFiles := 1 }

/-- The system with the object "graph-buf" of another process, where the process
may hold one descriptor only. -/
def Kernel.sharedOneFile : Kernel :=
  { Kernel.shared with maxFiles := 1 }

/-- A system in which another user has created the object "graph-buf" with mode
0666 in a sticky directory: the process may read and write it and may not
unlink it. -/
def Kernel.foreign : Kernel :=
  { Kernel.empty with objects := [⟨"graph-buf", 1, 4096, true, true, false⟩], nextIno := 2 }

/-- Whether a slot holds a live owner of the name. -/
def isOwnerOf (name : String) : Option SharedMemory → Bool
  | some s => s.own && s.name == name
  | none => false

/-- Number of live handles of the name that are owners. -/
def liveOwners (name : String) (hs : List (Option SharedMemory)) : Nat :=
  hs.countP (isOwnerOf name)

/-- Number of entries of the resource manager keyed by the name. -/
def keyCount (name : String) (l : List (String × SharedMemoryResource)) : Nat :=
  l.countP (fun e => e.1 == name)

/-- What holds of a process after any sequence of operations, for a name:
the entries of the resource manager are well keyed, at most one is keyed by
the name, the shm_unlink calls issued plus the entry still registered are
covered by the AddResource calls issued, and while the process lives so are
the shm_unlink calls plus the live owners, one of which stands behind the
entry. -/
structure Inv (name : String) (p : Process) : Prop where
  ok : p.world.resourcesOk
  single : keyCount name p.world.resources ≤ 1
  budget : unlinks name p.world.trace + keyCount name p.world.resources
            ≤ registrations name p.world.trace
  live : p.dead = false →
    unlinks name p.world.trace + liveOwners name p.handles ≤ registrations name p.world.trace
    ∧ (1 ≤ keyCount name p.world.resources → 1 ≤ liveOwners name p.handles)

/-! ## Properties -/

theorem Kernel.objects_mmap (k : Kernel) (addr length prot flags : Nat) (fd : Int) (offset : Nat) :
    (k.mmap addr length prot flags fd offset).2.objects = k.objects := by
  unfold Kernel.mmap
  split
  · dsimp only
    split <;> rfl
  · rfl

theorem Kernel.objects_munmap (k : Kernel) (addr length : Nat) :
    (k.munmap addr length).2.objects = k.objects := by
  unfold Kernel.munmap
  dsimp only
  split <;> rfl

theorem Kernel.objects_close (k : Kernel) (fd : Int) :
    (k.close fd).2.objects = k.objects := by
  unfold Kernel.close
  split <;> rfl

theorem Kernel.lookup_congr {k k' : Kernel} (h : k'.objects = k.objects) (name : String) :
    k'.lookup name = k.lookup name := by
  simp [Kernel.lookup, h]

theorem Kernel.maxFiles_mmap (k : Kernel) (addr length prot flags : Nat) (fd : Int) (offset : Nat) :
    (k.mmap addr length prot flags fd offset).2.maxFiles = k.maxFiles := by
  unfold Kernel.mmap
  split
  · dsimp only
    split <;> rfl
  · rfl

theorem Kernel.maxFiles_munmap (k : Kernel) (addr length : Nat) :
    (k.munmap addr length).2.maxFiles = k.maxFiles := by
  unfold Kernel.munmap
  dsimp only
  split <;> rfl

theorem Kernel.maxFiles_close (k : Kernel) (fd : Int) :
    (k.close fd).2.maxFiles = k.maxFiles := by
  unfold Kernel.close
  split <;> rfl

/-- What a shm_open that returned a descriptor did: the descriptor is the lowest
free one and lies below the limit; the object was there and readable, or it
was absent and has been created with the permission bits the umask leaves. -/
theorem Kernel.shm_open_ok (k : Kernel) (name : String) (oflag mode : Nat)
    (h : (k.shm_open name oflag mode).1 ≠ -1) :
    (k.shm_open name oflag mode).1 = (k.freeFd : Int)
    ∧ k.freeFd < k.maxFiles
    ∧ (k.shm_open name oflag mode).2.maxFiles = k.maxFiles
    ∧ (∃ ino, (k.shm_open name oflag mode).2.files
        = k.files ++ [⟨k.freeFd, ino, (oflag &&& O_ACCMODE) == O_RDWR⟩])
    ∧ ((∃ o, k.lookup name = some o ∧ o.readable = true
          ∧ (k.shm_open name oflag mode).2.objects = k.objects)
      ∨ (k.lookup name = none ∧ ((oflag &&& O_CREAT) != 0) = true
          ∧ (k.shm_open name oflag mode).2.objects
            = k.objects ++ [⟨name, k.nextIno, 0,
                (mode &&& S_IRUSR) != 0 && (k.umask &&& S_IRUSR) == 0,
                (mode &&& S_IWUSR) != 0 && (k.umask &&& S_IWUSR) == 0, true⟩])) := by
  unfold Kernel.shm_open at h ⊢
  cases hl : k.lookup name with
  | some o =>
    simp only [hl] at h ⊢
    by_cases hc : (o.readable && (!((oflag &&& O_ACCMODE) == O_RDWR) || o.writable)
        && k.hasFreeFd) = true
    · rw [if_pos hc]
      have hc' := hc
      simp only [Bool.and_eq_true, Kernel.hasFreeFd, decide_eq_true_eq] at hc'
      exact ⟨rfl, hc'.2, rfl, ⟨_, rfl⟩, Or.inl ⟨o, rfl, hc'.1.1, rfl⟩⟩
    · rw [if_neg hc] at h
      exact absurd rfl h
  | none =>
    simp only [hl] at h ⊢
    by_cases hc : ((oflag &&& O_CREAT) != 0 && !(k.noCreate.contains name) && k.hasFreeFd) = true
    · rw [if_pos hc]
      have hc' := hc
      simp only [Bool.and_eq_true, Kernel.hasFreeFd, decide_eq_true_eq] at hc'
      exact ⟨rfl, hc'.2, rfl, ⟨_, rfl⟩, Or.inr ⟨by trivial, hc'.1.1, rfl⟩⟩
    · rw [if_neg hc] at h
      exact absurd rfl h

theorem find_append_new (l : List ShmObject) (o : ShmObject) (name : String)
    (hl : l.find? (fun o => o.name == name) = none) (ho : o.name = name) :
    (l ++ [o]).find? (fun o => o.name == name) = some o := by
  simp [List.find?_append, hl, ho]

/-- After a shm_open that returned a descriptor the name is linked. -/
theorem Kernel.linked_shm_open (k : Kernel) (name : String) (oflag mode : Nat)
    (h : (k.shm_open name oflag mode).1 ≠ -1) :
    (k.shm_open name oflag mode).2.linked name := by
  obtain ⟨_, _, _, _, hc⟩ := Kernel.shm_open_ok k name oflag mode h
  rcases hc with ⟨o, hl, _, ho⟩ | ⟨hl, _, ho⟩
  · exact ⟨o, (Kernel.lookup_congr ho name).trans hl⟩
  · refine ⟨⟨name, k.nextIno, 0,
        (mode &&& S_IRUSR) != 0 && (k.umask &&& S_IRUSR) == 0,
        (mode &&& S_IWUSR) != 0 && (k.umask &&& S_IWUSR) == 0, true⟩, ?_⟩
    unfold Kernel.lookup
    rw [ho]
    exact find_append_new _ _ name hl rfl

/-- After a shm_open that returned a descriptor the object is readable, if the
mode asks for owner read and the umask leaves it. -/
theorem Kernel.visible_shm_open (k : Kernel) (name : String) (oflag mode : Nat)
    (hm : ((mode &&& S_IRUSR) != 0) = true) (hu : (k.umask &&& S_IRUSR) = 0)
    (h : (k.shm_open name oflag mode).1 ≠ -1) :
    (k.shm_open name oflag mode).2.visible name := by
  obtain ⟨_, _, _, _, hc⟩ := Kernel.shm_open_ok k name oflag mode h
  rcases hc with ⟨o, hl, hr, ho⟩ | ⟨hl, _, ho⟩
  · exact ⟨o, (Kernel.lookup_congr ho name).trans hl, hr⟩
  · refine ⟨⟨name, k.nextIno, 0,
        (mode &&& S_IRUSR) != 0 && (k.umask &&& S_IRUSR) == 0,
        (mode &&& S_IWUSR) != 0 && (k.umask &&& S_IWUSR) == 0, true⟩, ?_, ?_⟩
    · unfold Kernel.lookup
      rw [ho]
      exact find_append_new _ _ name hl rfl
    · simp [hm, hu]

/-- A ftruncate changes lengths only. -/
theorem Kernel.lookup_ftruncate (k : Kernel) (fd : Int) (length : Nat) (name : String) :
    ∃ g : ShmObject → ShmObject,
      (∀ o, (g o).readable = o.readable ∧ (g o).removable = o.removable)
      ∧ (k.ftruncate fd length).2.lookup name = (k.lookup name).map g := by
  unfold Kernel.ftruncate
  split
  · rename_i f _
    split
    · refine ⟨fun o => if o.ino = f.ino then { o with length := length } else o, ?_, ?_⟩
      · intro o
        dsimp only
        split <;> exact ⟨rfl, rfl⟩
      · simp only [Kernel.lookup, List.find?_map]
        have : ((fun (o : ShmObject) => o.name == name) ∘
            fun o => if o.ino = f.ino then { o with length := length } else o)
            = fun o => o.name == name := by
          funext x
          simp only [Function.comp]
          split <;> rfl
        rw [this]
    · exact ⟨id, fun _ => ⟨rfl, rfl⟩, by simp⟩
  · exact ⟨id, fun _ => ⟨rfl, rfl⟩, by simp⟩

theorem Kernel.linked_ftruncate (k : Kernel) (fd : Int) (length : Nat) (name : String)
    (h : k.linked name) : (k.ftruncate fd length).2.linked name := by
  obtain ⟨o, ho⟩ := h
  obtain ⟨g, _, hl⟩ := Kernel.lookup_ftruncate k fd length name
  exact ⟨g o, by rw [hl, ho]; rfl⟩

theorem Kernel.visible_ftruncate (k : Kernel) (fd : Int) (length : Nat) (name : String)
    (h : k.visible name) : (k.ftruncate fd length).2.visible name := by
  obtain ⟨o, ho, hr⟩ := h
  obtain ⟨g, hg, hl⟩ := Kernel.lookup_ftruncate k fd length name
  exact ⟨g o, by rw [hl, ho]; rfl, by rw [(hg o).1]; exact hr⟩

/-- The value Exist returns: whether the read-only shm_open succeeds, which it
does when the object is linked and readable and a descriptor is free. -/
theorem Exist_ret (name : String) (w : World) :
    (SharedMemory.Exist name w).1
      = .ok (match w.kernel.lookup name with
             | some o => o.readable && w.kernel.hasFreeFd
             | none => false) := by
  unfold SharedMemory.Exist shm_open Kernel.shm_open
  cases hl : w.kernel.lookup name with
  | some o =>
    cases hr : o.readable <;> cases hf : w.kernel.hasFreeFd <;>
      simp [hr, hf, O_RDONLY, O_ACCMODE, O_RDWR]
  | none =>
    simp [O_RDONLY, O_CREAT]

theorem Exist_of_visible (name : String) (w : World) (h : w.kernel.visible name)
    (hf : w.kernel.hasFreeFd = true) :
    (SharedMemory.Exist name w).1 = .ok true := by
  obtain ⟨o, ho, hr⟩ := h
  rw [Exist_ret, ho]
  simp only [hr, hf, Bool.and_self]

theorem Exist_of_absent (name : String) (w : World) (h : w.kernel.lookup name = none) :
    (SharedMemory.Exist name w).1 = .ok false := by
  rw [Exist_ret, h]

/-- The steps of a CreateNew that returned. -/
theorem CreateNew_ok (self : SharedMemory) (size : Nat) (w : World) (p : Nat)
    (h : (self.CreateNew size w).ret = .ok p) :
    (shm_open self.name (O_RDWR ||| O_CREAT) (S_IRUSR ||| S_IWUSR) w).1 ≠ -1
    ∧ (ftruncate (shm_open self.name (O_RDWR ||| O_CREAT) (S_IRUSR ||| S_IWUSR) w).1 size
        (AddResource self.name ⟨self.name⟩
          (shm_open self.name (O_RDWR ||| O_CREAT) (S_IRUSR ||| S_IWUSR) w).2)).1 ≠ -1
    ∧ (mmap nullptr size (PROT_READ ||| PROT_WRITE) MAP_SHARED
        (shm_open self.name (O_RDWR ||| O_CREAT) (S_IRUSR ||| S_IWUSR) w).1 0
        (ftruncate (shm_open self.name (O_RDWR ||| O_CREAT) (S_IRUSR ||| S_IWUSR) w).1 size
          (AddResource self.name ⟨self.name⟩
            (shm_open self.name (O_RDWR ||| O_CREAT) (S_IRUSR ||| S_IWUSR) w).2)).2).1 ≠ MAP_FAILED
    ∧ (self.CreateNew size w).self =
        { self with
          own := true
          fd := (shm_open self.name (O_RDWR ||| O_CREAT) (S_IRUSR ||| S_IWUSR) w).1
          ptr := (mmap nullptr size (PROT_READ ||| PROT_WRITE) MAP_SHARED
            (shm_open self.name (O_RDWR ||| O_CREAT) (S_IRUSR ||| S_IWUSR) w).1 0
            (ftruncate (shm_open self.name (O_RDWR ||| O_CREAT) (S_IRUSR ||| S_IWUSR) w).1 size
              (AddResource self.name ⟨self.name⟩
                (shm_open self.name (O_RDWR ||| O_CREAT) (S_IRUSR ||| S_IWUSR) w).2)).2).1 }
    ∧ (self.CreateNew size w).world =
        (mmap nullptr size (PROT_READ ||| PROT_WRITE) MAP_SHARED
          (shm_open self.name (O_RDWR ||| O_CREAT) (S_IRUSR ||| S_IWUSR) w).1 0
          (ftruncate (shm_open self.name (O_RDWR ||| O_CREAT) (S_IRUSR ||| S_IWUSR) w).1 size
            (AddResource self.name ⟨self.name⟩
              (shm_open self.name (O_RDWR ||| O_CREAT) (S_IRUSR ||| S_IWUSR) w).2)).2).2
    ∧ p = (self.CreateNew size w).self.ptr := by
  unfold SharedMemory.CreateNew at h ⊢
  dsimp only at h ⊢
  by_cases h1 : (shm_open self.name (O_RDWR ||| O_CREAT) (S_IRUSR ||| S_IWUSR) w).1 = -1
  · rw [if_pos h1] at h; cases h
  rw [if_neg h1] at h ⊢
  by_cases h2 : (ftruncate (shm_open self.name (O_RDWR ||| O_CREAT) (S_IRUSR ||| S_IWUSR) w).1 size
        (AddResource self.name ⟨self.name⟩
          (shm_open self.name (O_RDWR ||| O_CREAT) (S_IRUSR ||| S_IWUSR) w).2)).1 = -1
  · rw [if_pos h2] at h; cases h
  rw [if_neg h2] at h ⊢
  by_cases h3 : (mmap nullptr size (PROT_READ ||| PROT_WRITE) MAP_SHARED
        (shm_open self.name (O_RDWR ||| O_CREAT) (S_IRUSR ||| S_IWUSR) w).1 0
        (ftruncate (shm_open self.name (O_RDWR ||| O_CREAT) (S_IRUSR ||| S_IWUSR) w).1 size
          (AddResource self.name ⟨self.name⟩
            (shm_open self.name (O_RDWR ||| O_CREAT) (S_IRUSR ||| S_IWUSR) w).2)).2).1 = MAP_FAILED
  · rw [if_pos h3] at h; cases h
  rw [if_neg h3] at h ⊢
  refine ⟨h1, h2, h3, rfl, rfl, ?_⟩
  injection h with h
  exact h.symm

/-- The four ways CreateNew can end, with the calls issued and the entries of
the resource manager in each. -/
theorem CreateNew_cases (self : SharedMemory) (size : Nat) (w : World) :
    (self.CreateNew size w).self.name = self.name
    ∧ (self.CreateNew size w).self.own = true
    ∧ (self.CreateNew size w).self.size = self.size
    ∧ (((self.CreateNew size w).ret = .error "fail to open"
        ∧ (self.CreateNew size w).world.trace
            = w.trace ++ [Event.shm_open self.name (O_RDWR ||| O_CREAT) (S_IRUSR ||| S_IWUSR) (-1)]
        ∧ (self.CreateNew size w).world.resources = w.resources)
      ∨ (∃ fd : Int, fd ≠ -1
        ∧ (self.CreateNew size w).ret = .error "Failed to truncate the file."
        ∧ (self.CreateNew size w).world.trace
            = w.trace ++ [Event.shm_open self.name (O_RDWR ||| O_CREAT) (S_IRUSR ||| S_IWUSR) fd,
                Event.AddResource self.name, Event.ftruncate fd size (-1)]
        ∧ (self.CreateNew size w).world.resources = w.added self.name)
      ∨ (∃ fd res : Int, fd ≠ -1 ∧ res ≠ -1
        ∧ (self.CreateNew size w).ret = .error "Failed to map shared memory."
        ∧ (self.CreateNew size w).world.trace
            = w.trace ++ [Event.shm_open self.name (O_RDWR ||| O_CREAT) (S_IRUSR ||| S_IWUSR) fd,
                Event.AddResource self.name, Event.ftruncate fd size res,
                Event.mmap nullptr size (PROT_READ ||| PROT_WRITE) MAP_SHARED fd 0 MAP_FAILED]
        ∧ (self.CreateNew size w).world.resources = w.added self.name)
      ∨ (∃ (fd res : Int) (p : Nat), fd ≠ -1 ∧ res ≠ -1 ∧ p ≠ MAP_FAILED
        ∧ (self.CreateNew size w).ret = .ok p
        ∧ (self.CreateNew size w).self.fd = fd
        ∧ (self.CreateNew size w).self.ptr = p
        ∧ (self.CreateNew size w).world.trace
            = w.trace ++ [Event.shm_open self.name (O_RDWR ||| O_CREAT) (S_IRUSR ||| S_IWUSR) fd,
                Event.AddResource self.name, Event.ftruncate fd size res,
                Event.mmap nullptr size (PROT_READ ||| PROT_WRITE) MAP_SHARED fd 0 p]
        ∧ (self.CreateNew size w).world.resources = w.added self.name)) := by
  unfold SharedMemory.CreateNew
  dsimp only
  by_cases h1 : (shm_open self.name (O_RDWR ||| O_CREAT) (S_IRUSR ||| S_IWUSR) w).1 = -1
  · rw [if_pos h1]
    refine ⟨rfl, rfl, rfl, Or.inl ⟨rfl, ?_, rfl⟩⟩
    show w.trace ++ [Event.shm_open self.name (O_RDWR ||| O_CREAT) (S_IRUSR ||| S_IWUSR)
      (shm_open self.name (O_RDWR ||| O_CREAT) (S_IRUSR ||| S_IWUSR) w).1] = _
    rw [h1]
  rw [if_neg h1]
  by_cases h2 : (ftruncate (shm_open self.name (O_RDWR ||| O_CREAT) (S_IRUSR ||| S_IWUSR) w).1 size
        (AddResource self.name ⟨self.name⟩
          (shm_open self.name (O_RDWR ||| O_CREAT) (S_IRUSR ||| S_IWUSR) w).2)).1 = -1
  · rw [if_pos h2]
    refine ⟨rfl, rfl, rfl, Or.inr (Or.inl ⟨_, h1, rfl, ?_, rfl⟩)⟩
    show (w.trace ++ [_] ++ [_]) ++ [Event.ftruncate _ size
      (ftruncate (shm_open self.name (O_RDWR ||| O_CREAT) (S_IRUSR ||| S_IWUSR) w).1 size
        (AddResource self.name ⟨self.name⟩
          (shm_open self.name (O_RDWR ||| O_CREAT) (S_IRUSR ||| S_IWUSR) w).2)).1] = _
    rw [h2]
    simp only [List.append_assoc, List.cons_append, List.nil_append]
    rfl
  rw [if_neg h2]
  by_cases h3 : (mmap nullptr size (PROT_READ ||| PROT_WRITE) MAP_SHARED
        (shm_open self.name (O_RDWR ||| O_CREAT) (S_IRUSR ||| S_IWUSR) w).1 0
        (ftruncate (shm_open self.name (O_RDWR ||| O_CREAT) (S_IRUSR ||| S_IWUSR) w).1 size
          (AddResource self.name ⟨self.name⟩
            (shm_open self.name (O_RDWR ||| O_CREAT) (S_IRUSR ||| S_IWUSR) w).2)).2).1 = MAP_FAILED
  · rw [if_pos h3]
    refine ⟨rfl, rfl, rfl, Or.inr (Or.inr (Or.inl ⟨_, _, h1, h2, rfl, ?_, rfl⟩))⟩
    show ((w.trace ++ [_] ++ [_]) ++ [_]) ++ [Event.mmap nullptr size (PROT_READ ||| PROT_WRITE) MAP_SHARED _ 0
      (mmap nullptr size (PROT_READ ||| PROT_WRITE) MAP_SHARED
        (shm_open self.name (O_RDWR ||| O_CREAT) (S_IRUSR ||| S_IWUSR) w).1 0
        (ftruncate (shm_open self.name (O_RDWR ||| O_CREAT) (S_IRUSR ||| S_IWUSR) w).1 size
          (AddResource self.name ⟨self.name⟩
            (shm_open self.name (O_RDWR ||| O_CREAT) (S_IRUSR ||| S_IWUSR) w).2)).2).1] = _
    rw [h3]
    simp only [List.append_assoc, List.cons_append, List.nil_append]
    rfl
  rw [if_neg h3]
  refine ⟨rfl, rfl, rfl, Or.inr (Or.inr (Or.inr ⟨_, _, _, h1, h2, h3, rfl, rfl, rfl, ?_, rfl⟩))⟩
  show ((w.trace ++ [_] ++ [_]) ++ [_]) ++ [_] = _
  simp only [List.append_assoc, List.cons_append, List.nil_append]
  rfl

/-- The steps of an Open that returned. -/
theorem Open_ok (self : SharedMemory) (size : Nat) (w : World) (p : Nat)
    (h : (self.Open size w).ret = .ok p) :
    (shm_open self.name O_RDWR (S_IRUSR ||| S_IWUSR) w).1 ≠ -1
    ∧ (mmap nullptr size (PROT_READ ||| PROT_WRITE) MAP_SHARED (shm_open self.name O_RDWR (S_IRUSR ||| S_IWUSR) w).1 0
        (shm_open self.name O_RDWR (S_IRUSR ||| S_IWUSR) w).2).1 ≠ MAP_FAILED
    ∧ (self.Open size w).self =
        { self with
          fd := (shm_open self.name O_RDWR (S_IRUSR ||| S_IWUSR) w).1
          ptr := (mmap nullptr size (PROT_READ ||| PROT_WRITE) MAP_SHARED
            (shm_open self.name O_RDWR (S_IRUSR ||| S_IWUSR) w).1 0
            (shm_open self.name O_RDWR (S_IRUSR ||| S_IWUSR) w).2).1 }
    ∧ (self.Open size w).world =
        (mmap nullptr size (PROT_READ ||| PROT_WRITE) MAP_SHARED (shm_open self.name O_RDWR (S_IRUSR ||| S_IWUSR) w).1 0
          (shm_open self.name O_RDWR (S_IRUSR ||| S_IWUSR) w).2).2
    ∧ p = (self.Open size w).self.ptr := by
  unfold SharedMemory.Open at h ⊢
  dsimp only at h ⊢
  by_cases h1 : (shm_open self.name O_RDWR (S_IRUSR ||| S_IWUSR) w).1 = -1
  · rw [if_pos h1] at h; cases h
  rw [if_neg h1] at h ⊢
  by_cases h3 : (mmap nullptr size (PROT_READ ||| PROT_WRITE) MAP_SHARED
        (shm_open self.name O_RDWR (S_IRUSR ||| S_IWUSR) w).1 0
        (shm_open self.name O_RDWR (S_IRUSR ||| S_IWUSR) w).2).1 = MAP_FAILED
  · rw [if_pos h3] at h; cases h
  rw [if_neg h3] at h ⊢
  refine ⟨h1, h3, rfl, rfl, ?_⟩
  injection h with h
  exact h.symm

/-- Open leaves the name and the ownership of the handle and the resource
manager as they are, and issues neither shm_unlink nor AddResource. -/
theorem Open_frame (self : SharedMemory) (size : Nat) (w : World) :
    (self.Open size w).self.name = self.name
    ∧ (self.Open size w).self.own = self.own
    ∧ (self.Open size w).self.size = self.size
    ∧ (self.Open size w).world.resources = w.resources
    ∧ (∀ n, unlinks n (self.Open size w).world.trace = unlinks n w.trace)
    ∧ (∀ n, registrations n (self.Open size w).world.trace = registrations n w.trace) := by
  unfold SharedMemory.Open
  dsimp only
  split
  · refine ⟨rfl, rfl, rfl, rfl, ?_, ?_⟩ <;> intro n <;>
      simp [shm_open, unlinks, registrations, List.countP_append, List.countP_cons]
  · split
    · refine ⟨rfl, rfl, rfl, rfl, ?_, ?_⟩ <;> intro n <;>
        simp [shm_open, mmap, unlinks, registrations, List.countP_append, List.countP_cons]
    · refine ⟨rfl, rfl, rfl, rfl, ?_, ?_⟩ <;> intro n <;>
        simp [shm_open, mmap, unlinks, registrations, List.countP_append, List.countP_cons]

/-- The calls the destructor issues, in order. -/
theorem dtor_trace (self : SharedMemory) (w : World) :
    (self.dtor w).trace
      = w.trace
        ++ [Event.munmap self.ptr self.size (w.kernel.munmap self.ptr self.size).1,
            Event.close self.fd ((w.kernel.munmap self.ptr self.size).2.close self.fd).1]
        ++ (if self.own then
              [Event.shm_unlink self.name
                 (((w.kernel.munmap self.ptr self.size).2.close self.fd).2.shm_unlink self.name).1,
               Event.DeleteResource self.name]
            else []) := by
  unfold SharedMemory.dtor
  cases self.own <;>
    simp [munmap, close, shm_unlink, DeleteResource, List.append_assoc]

/-- The entries of the resource manager after the destructor. -/
theorem dtor_resources (self : SharedMemory) (w : World) :
    (self.dtor w).resources
      = if self.own then w.resources.filter (fun e => !(e.1 == self.name)) else w.resources := by
  unfold SharedMemory.dtor
  cases self.own <;> simp [munmap, close, shm_unlink, DeleteResource]

theorem Kernel.files_ftruncate (k : Kernel) (fd : Int) (length : Nat) :
    (k.ftruncate fd length).2.files = k.files := by
  unfold Kernel.ftruncate
  split
  · split <;> rfl
  · rfl

theorem Kernel.files_mmap (k : Kernel) (addr length prot flags : Nat) (fd : Int) (offset : Nat) :
    (k.mmap addr length prot flags fd offset).2.files = k.files := by
  unfold Kernel.mmap
  split
  · dsimp only
    split <;> rfl
  · rfl

theorem Kernel.files_munmap (k : Kernel) (addr length : Nat) :
    (k.munmap addr length).2.files = k.files := by
  unfold Kernel.munmap
  dsimp only
  split <;> rfl

theorem Kernel.files_shm_unlink (k : Kernel) (name : String) :
    (k.shm_unlink name).2.files = k.files := by
  unfold Kernel.shm_unlink
  split
  · split <;> rfl
  · rfl

theorem Kernel.file_congr {k k' : Kernel} (h : k'.files = k.files) (fd : Int) :
    k'.file fd = k.file fd := by
  simp [Kernel.file, h]

/-- A descriptor shm_open returned is open. -/
theorem Kernel.file_shm_open (k : Kernel) (name : String) (oflag mode : Nat)
    (h : (k.shm_open name oflag mode).1 ≠ -1) :
    ((k.shm_open name oflag mode).2.file (k.shm_open name oflag mode).1).isSome = true := by
  obtain ⟨hfd, _, _, ⟨ino, hfiles⟩, _⟩ := Kernel.shm_open_ok k name oflag mode h
  rw [hfd]
  unfold Kernel.file
  rw [hfiles]
  simp [List.find?_append]

/-- No descriptor is negative. -/
theorem Kernel.file_neg (k : Kernel) (fd : Int) (h : fd < 0) : k.file fd = none := by
  unfold Kernel.file
  rw [List.find?_eq_none]
  intro f _
  simp only [beq_iff_eq]
  omega

/-- After close(fd) the descriptor fd is not open, and close succeeded if it was. -/
theorem Kernel.file_close (k : Kernel) (fd : Int) :
    (k.close fd).2.file fd = none
    ∧ ((k.file fd).isSome = true → (k.close fd).1 = 0) := by
  unfold Kernel.close
  cases hf : k.file fd with
  | some f =>
    refine ⟨?_, fun _ => rfl⟩
    show List.find? _ (List.filter _ _) = none
    rw [List.find?_eq_none]
    intro g hg
    have := (List.mem_filter.mp hg).2
    simpa using this
  | none => exact ⟨hf, fun h => by simp at h⟩

/-- The search for a free number stops at the first one that is free. -/
theorem lowestFree_le (used : List Nat) (fuel n m : Nat) (hnm : n ≤ m)
    (hm : used.contains m = false) : lowestFree used fuel n ≤ m := by
  induction fuel generalizing n with
  | zero => exact hnm
  | succ fuel ih =>
    unfold lowestFree
    by_cases hn : used.contains n = true
    · rw [if_pos hn]
      have hne : n ≠ m := fun he => by rw [he, hm] at hn; cases hn
      exact ih (n + 1) (by omega)
    · rw [if_neg hn]
      exact hnm

/-- Once a descriptor is closed, the lowest free descriptor is no higher. -/
theorem Kernel.freeFd_close (k : Kernel) (n : Nat) :
    (k.close (n : Int)).2.file (n : Int) = none → (k.close (n : Int)).2.freeFd ≤ n := by
  intro hnone
  unfold Kernel.freeFd
  apply lowestFree_le _ _ _ _ (Nat.zero_le n)
  cases hc : ((k.close (n : Int)).2.files.map (fun f => f.fd)).contains n with
  | false => rfl
  | true =>
    exfalso
    rw [List.contains_iff_exists_mem_beq] at hc
    obtain ⟨x, hx, hxn⟩ := hc
    obtain ⟨f, hf, hfx⟩ := List.mem_map.mp hx
    have hfn : f.fd = n := by
      have : n = x := by simpa using hxn
      rw [hfx, this]
    unfold Kernel.file at hnone
    have := List.find?_eq_none.mp hnone f hf
    simp [hfn] at this

/-- The destructor of a handle that is not an owner is a munmap and a close. -/
theorem dtor_kernel_nonowner (self : SharedMemory) (w : World) (h : self.own = false) :
    (self.dtor w).kernel = ((w.kernel.munmap self.ptr self.size).2.close self.fd).2 := by
  unfold SharedMemory.dtor
  rw [h]
  rfl

theorem dtor_files (self : SharedMemory) (w : World) :
    (self.dtor w).kernel.files = ((w.kernel.munmap self.ptr self.size).2.close self.fd).2.files := by
  unfold SharedMemory.dtor
  cases self.own
  · rfl
  · simp only [munmap, close, shm_unlink, DeleteResource, if_true]
    exact Kernel.files_shm_unlink _ _

/-- The namespace after the destructor of a handle that is not an owner. -/
theorem dtor_objects_nonowner (self : SharedMemory) (w : World) (h : self.own = false) :
    (self.dtor w).kernel.objects = w.kernel.objects := by
  rw [dtor_kernel_nonowner self w h, Kernel.objects_close, Kernel.objects_munmap]

theorem lookup_filter_name (l : List ShmObject) (name : String) :
    (l.filter (fun o => !(o.name == name))).find? (fun o => o.name == name) = none := by
  rw [List.find?_eq_none]
  intro o ho
  have := (List.mem_filter.mp ho).2
  simpa using this

/-- After a shm_unlink that is not refused the name is not linked. -/
theorem Kernel.lookup_shm_unlink (k : Kernel) (name : String) (h : k.unlinkable name) :
    (k.shm_unlink name).2.lookup name = none := by
  unfold Kernel.shm_unlink
  cases hl : k.lookup name with
  | some o =>
    simp only [h o hl, if_true]
    exact lookup_filter_name _ _
  | none => exact hl

/-- After the destructor of an owner whose shm_unlink is not refused the name is
not linked. -/
theorem dtor_lookup_owner (self : SharedMemory) (w : World) (h : self.own = true)
    (hu : w.kernel.unlinkable self.name) :
    (self.dtor w).kernel.lookup self.name = none := by
  have hk : ((w.kernel.munmap self.ptr self.size).2.close self.fd).2.objects = w.kernel.objects := by
    rw [Kernel.objects_close, Kernel.objects_munmap]
  have hu' : ((w.kernel.munmap self.ptr self.size).2.close self.fd).2.unlinkable self.name := by
    intro o ho
    exact hu o ((Kernel.lookup_congr hk self.name).symm.trans ho)
  unfold SharedMemory.dtor
  rw [h]
  exact Kernel.lookup_shm_unlink _ _ hu'

theorem Exist_after_unlink (name : String) (w : World) (hu : w.kernel.unlinkable name) :
    (SharedMemory.Exist name (shm_unlink name w).2).1 = .ok false :=
  Exist_of_absent name _ (Kernel.lookup_shm_unlink w.kernel name hu)

theorem lookup_added_list (name : String) (l : List (String × SharedMemoryResource))
    (hl : ∀ e ∈ l, e.2.name = e.1) :
    (if l.any (fun e => e.1 == name) then l else l ++ [(name, ⟨name⟩)]).lookup name
      = some ⟨name⟩ := by
  induction l with
  | nil => simp [List.lookup]
  | cons e t ih =>
    obtain ⟨k, v⟩ := e
    have hv : v.name = k := hl (k, v) (List.mem_cons_self _ _)
    have ht : ∀ e ∈ t, e.2.name = e.1 := fun e he => hl e (List.mem_cons_of_mem _ he)
    by_cases hk : k = name
    · subst hk
      have : v = ⟨k⟩ := by cases v; simp_all
      simp [List.lookup, this]
    · have hne : (name == k) = false := by
        simp only [beq_eq_false_iff_ne, ne_eq]
        exact fun h => hk h.symm
      have hne' : (k == name) = false := by
        simp only [beq_eq_false_iff_ne, ne_eq]
        exact hk
      have ih' := ih ht
      by_cases ha : (t.any (fun e => e.1 == name)) = true
      · simp only [List.any_cons, hne', Bool.false_or, ha, if_true] at ih' ⊢
        simp only [List.lookup, hne]
        exact ih'
      · simp only [List.any_cons, hne', Bool.false_or, ha] at ih' ⊢
        simp only [List.cons_append, List.lookup, hne]
        exact ih'

theorem lookup_added (w : World) (name : String) (hok : w.resourcesOk) :
    (w.added name).lookup name = some ⟨name⟩ :=
  lookup_added_list name w.resources hok

theorem any_added (w : World) (name : String) :
    (w.added name).any (fun e => e.1 == name) = true := by
  unfold World.added World.registered
  by_cases ha : (w.resources.any (fun e => e.1 == name)) = true
  · rw [if_pos ha]; exact ha
  · rw [if_neg ha]; simp

theorem CreateNew_ok_resources (self : SharedMemory) (size : Nat) (w : World) (p : Nat)
    (h : (self.CreateNew size w).ret = .ok p) :
    (self.CreateNew size w).world.resources = w.added self.name := by
  obtain ⟨_, _, _, hc⟩ := CreateNew_cases self size w
  rcases hc with ⟨he, _⟩ | ⟨_, _, he, _⟩ | ⟨_, _, _, _, he, _⟩ | ⟨_, _, _, _, _, _, _, _, _, _, hr⟩
  · rw [he] at h; cases h
  · rw [he] at h; cases h
  · rw [he] at h; cases h
  · exact hr

theorem linked_CreateNew (self : SharedMemory) (size : Nat) (w : World) (p : Nat)
    (h : (self.CreateNew size w).ret = .ok p) :
    (self.CreateNew size w).world.kernel.linked self.name := by
  obtain ⟨h1, _, _, _, hw, _⟩ := CreateNew_ok self size w p h
  rw [hw]
  have hv := Kernel.linked_shm_open w.kernel self.name (O_RDWR ||| O_CREAT) (S_IRUSR ||| S_IWUSR) h1
  obtain ⟨o, ho⟩ :=
    Kernel.linked_ftruncate _ (w.kernel.shm_open self.name (O_RDWR ||| O_CREAT) (S_IRUSR ||| S_IWUSR)).1
      size self.name hv
  refine ⟨o, ?_⟩
  rw [← ho]
  exact Kernel.lookup_congr (Kernel.objects_mmap _ _ _ _ _ _ _) _

theorem visible_CreateNew (self : SharedMemory) (size : Nat) (w : World) (p : Nat)
    (hu : (w.kernel.umask &&& S_IRUSR) = 0)
    (h : (self.CreateNew size w).ret = .ok p) :
    (self.CreateNew size w).world.kernel.visible self.name := by
  obtain ⟨h1, _, _, _, hw, _⟩ := CreateNew_ok self size w p h
  rw [hw]
  have hv := Kernel.visible_shm_open w.kernel self.name (O_RDWR ||| O_CREAT) (S_IRUSR ||| S_IWUSR)
    (by decide) hu h1
  obtain ⟨o, ho, hr⟩ :=
    Kernel.visible_ftruncate _ (w.kernel.shm_open self.name (O_RDWR ||| O_CREAT) (S_IRUSR ||| S_IWUSR)).1
      size self.name hv
  refine ⟨o, ?_, hr⟩
  rw [← ho]
  exact Kernel.lookup_congr (Kernel.objects_mmap _ _ _ _ _ _ _) _

/-- C1 as amended. Create-then-Exists: for every name and every size > 0, in every
state of the world in which CreateNew on a freshly constructed handle returns
(its three calls to the operating system succeed), Exist(name) returns true in
the state CreateNew leaves, before the destructor of the handle has run,
provided the read-only probe of Exist is not refused: the umask of the process
leaves the owner-read bit, so that an object the call creates is readable, and
a descriptor is free for the probe. -/
theorem create_then_exist (name : String) (size : Nat) (w : World) (p : Nat)
    (_hsize : 0 < size)
    (h : ((SharedMemory.ctor name).CreateNew size w).ret = .ok p)
    (hmask : (w.kernel.umask &&& S_IRUSR) = 0)
    (hfree : ((SharedMemory.ctor name).CreateNew size w).world.kernel.hasFreeFd = true) :
    (SharedMemory.Exist name ((SharedMemory.ctor name).CreateNew size w).world).1 = .ok true :=
  Exist_of_visible name _ (visible_CreateNew (SharedMemory.ctor name) size w p hmask h) hfree

theorem create_then_exist_witness :
    (0 < 4096
      ∧ ((SharedMemory.ctor "graph-buf").CreateNew 4096 ⟨Kernel.empty, [], []⟩).ret = .ok 65536
      ∧ (Kernel.empty.umask &&& S_IRUSR) = 0
      ∧ ((SharedMemory.ctor "graph-buf").CreateNew 4096
          ⟨Kernel.empty, [], []⟩).world.kernel.hasFreeFd = true)
    ∧ (SharedMemory.Exist "graph-buf"
        ((SharedMemory.ctor "graph-buf").CreateNew 4096 ⟨Kernel.empty, [], []⟩).world).1 = .ok true :=
  ⟨⟨by decide, by rfl, by decide, by decide⟩,
   create_then_exist "graph-buf" 4096 ⟨Kernel.empty, [], []⟩ 65536 (by decide) (by rfl)
     (by decide) (by decide)⟩

/-- C1 as stated fails. Under umask 0400 the three calls of CreateNew(4096)
succeed and create "graph-buf" with mode 0200, which the read-only probe may
not open: Exist returns false. And when the process may hold one descriptor
only, CreateNew(4096) takes it and the probe of Exist finds the table full:
Exist returns false. -/
theorem create_then_exist_counterexample :
    (((SharedMemory.ctor "graph-buf").CreateNew 4096 ⟨Kernel.masked, [], []⟩).ret = .ok 65536
      ∧ ((SharedMemory.ctor "graph-buf").CreateNew 4096 ⟨Kernel.masked, [], []⟩).world.kernel.objects
          = [⟨"graph-buf", 1, 4096, false, true, true⟩]
      ∧ (SharedMemory.Exist "graph-buf"
          ((SharedMemory.ctor "graph-buf").CreateNew 4096 ⟨Kernel.masked, [], []⟩).world).1
          = .ok false)
    ∧ (((SharedMemory.ctor "graph-buf").CreateNew 4096 ⟨Kernel.oneFile, [], []⟩).ret = .ok 65536
      ∧ (SharedMemory.Exist "graph-buf"
          ((SharedMemory.ctor "graph-buf").CreateNew 4096 ⟨Kernel.oneFile, [], []⟩).world).1
          = .ok false) :=
  ⟨⟨by rfl, by decide, by rfl⟩, by rfl, by rfl⟩

/-- C2 as amended. Destroy removes existence: for every handle that became owner
of name through a CreateNew that returned, in whatever state of the world its
destructor runs, the resource manager holds no entry for name afterwards; and
Exist(name) returns false afterwards provided the shm_unlink of the destructor
is not refused, that is, the process may unlink the object linked under the
name. -/
theorem destroy_removes_existence (name : String) (size : Nat) (w : World) (p : Nat) (w' : World)
    (h : ((SharedMemory.ctor name).CreateNew size w).ret = .ok p) :
    (((SharedMemory.ctor name).CreateNew size w).self.dtor w').registered name = false
    ∧ (w'.kernel.unlinkable name →
        (SharedMemory.Exist name
          (((SharedMemory.ctor name).CreateNew size w).self.dtor w')).1 = .ok false) := by
  obtain ⟨_, _, _, hs, _, _⟩ := CreateNew_ok (SharedMemory.ctor name) size w p h
  have hown : ((SharedMemory.ctor name).CreateNew size w).self.own = true := by rw [hs]
  have hname' : ((SharedMemory.ctor name).CreateNew size w).self.name = name := by rw [hs]; rfl
  constructor
  · unfold World.registered
    rw [dtor_resources, if_pos hown, hname']
    simp
  · intro hu
    apply Exist_of_absent
    have := dtor_lookup_owner ((SharedMemory.ctor name).CreateNew size w).self w' hown
      (by rw [hname']; exact hu)
    rw [hname'] at this
    exact this

theorem destroy_removes_existence_witness :
    (((SharedMemory.ctor "graph-buf").CreateNew 4096 ⟨Kernel.empty, [], []⟩).ret = .ok 65536
      ∧ ((SharedMemory.ctor "graph-buf").CreateNew 4096
          ⟨Kernel.empty, [], []⟩).world.kernel.unlinkable "graph-buf")
    ∧ (((SharedMemory.ctor "graph-buf").CreateNew 4096 ⟨Kernel.empty, [], []⟩).self.dtor
          ((SharedMemory.ctor "graph-buf").CreateNew 4096 ⟨Kernel.empty, [], []⟩).world).registered
        "graph-buf" = false
    ∧ (SharedMemory.Exist "graph-buf"
        (((SharedMemory.ctor "graph-buf").CreateNew 4096 ⟨Kernel.empty, [], []⟩).self.dtor
          ((SharedMemory.ctor "graph-buf").CreateNew 4096 ⟨Kernel.empty, [], []⟩).world)).1
        = .ok false :=
  have hu : ((SharedMemory.ctor "graph-buf").CreateNew 4096
      ⟨Kernel.empty, [], []⟩).world.kernel.unlinkable "graph-buf" := by
    intro o ho
    have h1 : ((SharedMemory.ctor "graph-buf").CreateNew 4096
        ⟨Kernel.empty, [], []⟩).world.kernel.lookup "graph-buf"
        = some ⟨"graph-buf", 1, 4096, true, true, true⟩ := by decide
    rw [h1] at ho
    injection ho with ho
    rw [← ho]
  ⟨⟨by rfl, hu⟩,
   (destroy_removes_existence "graph-buf" 4096 ⟨Kernel.empty, [], []⟩ 65536 _ (by rfl)).1,
   (destroy_removes_existence "graph-buf" 4096 ⟨Kernel.empty, [], []⟩ 65536 _ (by rfl)).2 hu⟩

/-- C2 as stated fails. Another user has created "graph-buf" with mode 0666 in
the sticky directory of the shared-memory objects. CreateNew(4096), which opens
with O_CREAT and without O_EXCL, opens that object and makes the handle its
owner; the shm_unlink of the destructor is refused, its result is not looked
at, and Exist("graph-buf") still returns true after the destructor. -/
theorem destroy_removes_existence_counterexample :
    ((SharedMemory.ctor "graph-buf").CreateNew 4096 ⟨Kernel.foreign, [], []⟩).ret = .ok 65536
    ∧ ((SharedMemory.ctor "graph-buf").CreateNew 4096 ⟨Kernel.foreign, [], []⟩).self.own = true
    ∧ (((SharedMemory.ctor "graph-buf").CreateNew 4096 ⟨Kernel.foreign, [], []⟩).self.dtor
        ((SharedMemory.ctor "graph-buf").CreateNew 4096 ⟨Kernel.foreign, [], []⟩).world).trace
        = [Event.shm_open "graph-buf" 66 384 0, Event.AddResource "graph-buf",
           Event.ftruncate 0 4096 0, Event.mmap 0 4096 3 1 0 0 65536,
           Event.munmap 65536 0 (-1), Event.close 0 0,
           Event.shm_unlink "graph-buf" (-1), Event.DeleteResource "graph-buf"]
    ∧ (SharedMemory.Exist "graph-buf"
        (((SharedMemory.ctor "graph-buf").CreateNew 4096 ⟨Kernel.foreign, [], []⟩).self.dtor
          ((SharedMemory.ctor "graph-buf").CreateNew 4096 ⟨Kernel.foreign, [], []⟩).world)).1
        = .ok true :=
  ⟨by rfl, by decide, by decide, by rfl⟩

/-- C5 as amended. Crash-path reclamation: in every state whose registry entries
are keyed by the name they hold, after a CreateNew(size) that returned and with
no destructor run, an object is linked under the name (and Exist reports it
when the umask leaves the owner-read bit and a descriptor is free for the
probe) and the resource manager holds an entry keyed by name; the Destroy
action of that entry is a shm_unlink of the stored name, and after it
Exist(name) returns false provided the shm_unlink is not refused, that is, the
process may unlink the object. -/
theorem crash_path_reclamation (name : String) (size : Nat) (w : World) (p : Nat)
    (hreg : w.resourcesOk)
    (h : ((SharedMemory.ctor name).CreateNew size w).ret = .ok p) :
    ((SharedMemory.ctor name).CreateNew size w).world.kernel.linked name
    ∧ ((w.kernel.umask &&& S_IRUSR) = 0 →
        ((SharedMemory.ctor name).CreateNew size w).world.kernel.hasFreeFd = true →
        (SharedMemory.Exist name ((SharedMemory.ctor name).CreateNew size w).world).1 = .ok true)
    ∧ ∃ res : SharedMemoryResource,
        ((SharedMemory.ctor name).CreateNew size w).world.resources.lookup name = some res
        ∧ res.Destroy ((SharedMemory.ctor name).CreateNew size w).world
            = (shm_unlink name ((SharedMemory.ctor name).CreateNew size w).world).2
        ∧ (((SharedMemory.ctor name).CreateNew size w).world.kernel.unlinkable name →
            (SharedMemory.Exist name
              (res.Destroy ((SharedMemory.ctor name).CreateNew size w).world)).1 = .ok false) := by
  refine ⟨linked_CreateNew (SharedMemory.ctor name) size w p h, ?_, ⟨name⟩, ?_, rfl, ?_⟩
  · intro hmask hfree
    exact Exist_of_visible name _
      (visible_CreateNew (SharedMemory.ctor name) size w p hmask h) hfree
  · rw [CreateNew_ok_resources _ size w p h]
    exact lookup_added w name hreg
  · intro hu
    exact Exist_after_unlink name _ hu

theorem crash_path_reclamation_witness :
    ((⟨Kernel.empty, [], []⟩ : World).resourcesOk
      ∧ ((SharedMemory.ctor "graph-buf").CreateNew 4096 ⟨Kernel.empty, [], []⟩).ret = .ok 65536
      ∧ ((SharedMemory.ctor "graph-buf").CreateNew 4096
          ⟨Kernel.empty, [], []⟩).world.kernel.unlinkable "graph-buf")
    ∧ (SharedMemory.Exist "graph-buf"
          ((SharedMemory.ctor "graph-buf").CreateNew 4096 ⟨Kernel.empty, [], []⟩).world).1 = .ok true
    ∧ ∃ res : SharedMemoryResource,
        ((SharedMemory.ctor "graph-buf").CreateNew 4096 ⟨Kernel.empty, [], []⟩).world.resources.lookup
            "graph-buf" = some res
        ∧ (SharedMemory.Exist "graph-buf"
            (res.Destroy ((SharedMemory.ctor "graph-buf").CreateNew 4096
              ⟨Kernel.empty, [], []⟩).world)).1 = .ok false :=
  have hu : ((SharedMemory.ctor "graph-buf").CreateNew 4096
      ⟨Kernel.empty, [], []⟩).world.kernel.unlinkable "graph-buf" := by
    intro o ho
    have h1 : ((SharedMemory.ctor "graph-buf").CreateNew 4096
        ⟨Kernel.empty, [], []⟩).world.kernel.lookup "graph-buf"
        = some ⟨"graph-buf", 1, 4096, true, true, true⟩ := by decide
    rw [h1] at ho
    injection ho with ho
    rw [← ho]
  have hreg : (⟨Kernel.empty, [], []⟩ : World).resourcesOk := fun _ he => (nomatch he)
  ⟨⟨hreg, by rfl, hu⟩,
   (crash_path_reclamation "graph-buf" 4096 ⟨Kernel.empty, [], []⟩ 65536 hreg (by rfl)).2.1
     (by decide) (by decide),
   (crash_path_reclamation "graph-buf" 4096 ⟨Kernel.empty, [], []⟩ 65536 hreg (by rfl)).2.2.elim
     (fun res hres => ⟨res, hres.1, hres.2.2 hu⟩)⟩

/-- C5 as stated fails. On the system where another user has created "graph-buf"
in a sticky directory, CreateNew(4096) returns and registers the entry
"graph-buf"; the Destroy action of that entry issues a shm_unlink that is
refused, and Exist("graph-buf") still returns true after it. -/
theorem crash_path_reclamation_counterexample :
    ((SharedMemory.ctor "graph-buf").CreateNew 4096 ⟨Kernel.foreign, [], []⟩).ret = .ok 65536
    ∧ ((SharedMemory.ctor "graph-buf").CreateNew 4096 ⟨Kernel.foreign, [], []⟩).world.resources
        = [("graph-buf", ⟨"graph-buf"⟩)]
    ∧ ((⟨"graph-buf"⟩ : SharedMemoryResource).Destroy
        ((SharedMemory.ctor "graph-buf").CreateNew 4096 ⟨Kernel.foreign, [], []⟩).world).trace
        = [Event.shm_open "graph-buf" 66 384 0, Event.AddResource "graph-buf",
           Event.ftruncate 0 4096 0, Event.mmap 0 4096 3 1 0 0 65536,
           Event.shm_unlink "graph-buf" (-1)]
    ∧ (SharedMemory.Exist "graph-buf"
        ((⟨"graph-buf"⟩ : SharedMemoryResource).Destroy
          ((SharedMemory.ctor "graph-buf").CreateNew 4096 ⟨Kernel.foreign, [], []⟩).world)).1
        = .ok true :=
  ⟨by rfl, by decide, by decide, by rfl⟩

/-- An Open that returned found the object linked and readable and a descriptor
free, and left the namespace as it was. -/
theorem Kernel.open_rdwr (k : Kernel) (name : String) (mode : Nat)
    (h : (k.shm_open name O_RDWR mode).1 ≠ -1) :
    k.visible name ∧ k.hasFreeFd = true
    ∧ (k.shm_open name O_RDWR mode).2.objects = k.objects := by
  obtain ⟨_, hlt, _, _, hc⟩ := Kernel.shm_open_ok k name O_RDWR mode h
  have hf : k.hasFreeFd = true := by
    unfold Kernel.hasFreeFd
    exact decide_eq_true hlt
  rcases hc with ⟨o, hl, hr, ho⟩ | ⟨_, hcreat, _⟩
  · exact ⟨⟨o, hl, hr⟩, hf, ho⟩
  · have hz : ((O_RDWR &&& O_CREAT) != 0) = false := by decide
    rw [hz] at hcreat
    cases hcreat

theorem visible_Open (self : SharedMemory) (size : Nat) (w : World) (p : Nat)
    (h : (self.Open size w).ret = .ok p) :
    w.kernel.visible self.name ∧ w.kernel.hasFreeFd = true
    ∧ (self.Open size w).world.kernel.objects = w.kernel.objects := by
  obtain ⟨h1, _, _, hw, _⟩ := Open_ok self size w p h
  obtain ⟨hv, hf, ho⟩ := Kernel.open_rdwr w.kernel self.name (S_IRUSR ||| S_IWUSR) h1
  refine ⟨hv, hf, ?_⟩
  rw [hw]
  exact (Kernel.objects_mmap _ _ _ _ _ _ _).trans ho

theorem Kernel.visible_congr {k k' : Kernel} (h : k'.objects = k.objects) (name : String)
    (hv : k.visible name) : k'.visible name := by
  obtain ⟨o, ho, hr⟩ := hv
  exact ⟨o, (Kernel.lookup_congr h name).trans ho, hr⟩

/-- After the destructor of a handle whose Open returned, a descriptor is free. -/
theorem free_after_Open_dtor (self : SharedMemory) (size : Nat) (w : World) (p : Nat)
    (hown : self.own = false) (h : (self.Open size w).ret = .ok p) :
    ((self.Open size w).self.dtor (self.Open size w).world).kernel.hasFreeFd = true := by
  obtain ⟨h1, _, hs, hw, _⟩ := Open_ok self size w p h
  obtain ⟨hfd, hlt, hmax, _, _⟩ :=
    Kernel.shm_open_ok w.kernel self.name O_RDWR (S_IRUSR ||| S_IWUSR) h1
  have hown' : (self.Open size w).self.own = false := by rw [hs]; exact hown
  have hfd' : (self.Open size w).self.fd = (w.kernel.freeFd : Int) := by rw [hs]; exact hfd
  have hmax' : (self.Open size w).world.kernel.maxFiles = w.kernel.maxFiles := by
    rw [hw]
    exact (Kernel.maxFiles_mmap _ _ _ _ _ _ _).trans hmax
  unfold Kernel.hasFreeFd
  rw [dtor_kernel_nonowner _ _ hown', hfd', Kernel.maxFiles_close, Kernel.maxFiles_munmap, hmax']
  apply decide_eq_true
  exact Nat.lt_of_le_of_lt
    (Kernel.freeFd_close _ _ (Kernel.file_close _ _).1) hlt

/-- C3 as amended. Non-owner isolation: a handle obtained by the constructor
followed by an Open(size) that returned has own = false and has left the
resource manager unchanged; its destructor leaves the namespace of objects and
the resource manager unchanged and issues no shm_unlink; Exist(name) is true
before the Open and after the destructor of the handle, and it is true between
the two provided a descriptor is free for the probe while the handle holds
its own. -/
theorem non_owner_isolation (name : String) (size : Nat) (w : World) (p : Nat)
    (h : ((SharedMemory.ctor name).Open size w).ret = .ok p) :
    ((SharedMemory.ctor name).Open size w).self.own = false
    ∧ ((SharedMemory.ctor name).Open size w).world.resources = w.resources
    ∧ (SharedMemory.Exist name w).1 = .ok true
    ∧ (((SharedMemory.ctor name).Open size w).world.kernel.hasFreeFd = true →
        (SharedMemory.Exist name ((SharedMemory.ctor name).Open size w).world).1 = .ok true)
    ∧ (((SharedMemory.ctor name).Open size w).self.dtor
        ((SharedMemory.ctor name).Open size w).world).kernel.objects
        = ((SharedMemory.ctor name).Open size w).world.kernel.objects
    ∧ (((SharedMemory.ctor name).Open size w).self.dtor
        ((SharedMemory.ctor name).Open size w).world).resources
        = ((SharedMemory.ctor name).Open size w).world.resources
    ∧ (∀ n, unlinks n (((SharedMemory.ctor name).Open size w).self.dtor
          ((SharedMemory.ctor name).Open size w).world).trace
        = unlinks n ((SharedMemory.ctor name).Open size w).world.trace)
    ∧ (SharedMemory.Exist name (((SharedMemory.ctor name).Open size w).self.dtor
        ((SharedMemory.ctor name).Open size w).world)).1 = .ok true := by
  obtain ⟨_, hown, _, hres, _, _⟩ := Open_frame (SharedMemory.ctor name) size w
  obtain ⟨hv, hf, hobj⟩ := visible_Open (SharedMemory.ctor name) size w p h
  have hown' : ((SharedMemory.ctor name).Open size w).self.own = false := hown
  have hv1 : ((SharedMemory.ctor name).Open size w).world.kernel.visible name :=
    Kernel.visible_congr hobj name hv
  have hd : (((SharedMemory.ctor name).Open size w).self.dtor
        ((SharedMemory.ctor name).Open size w).world).kernel.objects
        = ((SharedMemory.ctor name).Open size w).world.kernel.objects :=
    dtor_objects_nonowner _ _ hown'
  refine ⟨hown', hres, Exist_of_visible name w hv hf,
    fun hfree => Exist_of_visible name _ hv1 hfree, hd, ?_, ?_,
    Exist_of_visible name _ (Kernel.visible_congr hd name hv1)
      (free_after_Open_dtor (SharedMemory.ctor name) size w p rfl h)⟩
  · rw [dtor_resources, hown']; rfl
  · intro n
    rw [dtor_trace, hown']
    simp [unlinks, List.countP_append, List.countP_cons]

theorem non_owner_isolation_witness :
    (((SharedMemory.ctor "graph-buf").Open 1048576 ⟨Kernel.shared, [], []⟩).ret = .ok 65536
      ∧ ((SharedMemory.ctor "graph-buf").Open 1048576
          ⟨Kernel.shared, [], []⟩).world.kernel.hasFreeFd = true)
    ∧ (SharedMemory.Exist "graph-buf"
        ((SharedMemory.ctor "graph-buf").Open 1048576 ⟨Kernel.shared, [], []⟩).world).1 = .ok true
    ∧ (SharedMemory.Exist "graph-buf"
        (((SharedMemory.ctor "graph-buf").Open 1048576 ⟨Kernel.shared, [], []⟩).self.dtor
          ((SharedMemory.ctor "graph-buf").Open 1048576 ⟨Kernel.shared, [], []⟩).world)).1
        = .ok true :=
  ⟨⟨by rfl, by decide⟩,
   (non_owner_isolation "graph-buf" 1048576 ⟨Kernel.shared, [], []⟩ 65536 (by rfl)).2.2.2.1
     (by decide),
   (non_owner_isolation "graph-buf" 1048576 ⟨Kernel.shared, [], []⟩ 65536 (by rfl)).2.2.2.2.2.2.2⟩

/-- C3 as stated fails. The object "graph-buf" exists and the process may hold
one descriptor only: Open(1048576) returns and takes that descriptor, and
while the handle lives the probe of Exist finds the table full, so Exist
returns false before the destructor of the handle; after it Exist returns
true again. -/
theorem non_owner_isolation_counterexample :
    ((SharedMemory.ctor "graph-buf").Open 1048576 ⟨Kernel.sharedOneFile, [], []⟩).ret = .ok 65536
    ∧ (SharedMemory.Exist "graph-buf" ⟨Kernel.sharedOneFile, [], []⟩).1 = .ok true
    ∧ (SharedMemory.Exist "graph-buf"
        ((SharedMemory.ctor "graph-buf").Open 1048576 ⟨Kernel.sharedOneFile, [], []⟩).world).1
        = .ok false
    ∧ (SharedMemory.Exist "graph-buf"
        (((SharedMemory.ctor "graph-buf").Open 1048576 ⟨Kernel.sharedOneFile, [], []⟩).self.dtor
          ((SharedMemory.ctor "graph-buf").Open 1048576 ⟨Kernel.sharedOneFile, [], []⟩).world)).1
        = .ok true :=
  ⟨by rfl, by rfl, by rfl, by rfl⟩

/-- C6. Registration before sizing: every execution of CreateNew(size) ends in one
of four ways. It fails at opening, having issued the shm_open only, with the
resource manager unchanged; or it fails at truncation, or at mapping, or it
returns, and then AddResource(name) was issued right after the successful
shm_open and right before the ftruncate, and the resource manager holds an
entry for name at the point of failure (or of return). -/
theorem registration_before_sizing (self : SharedMemory) (size : Nat) (w : World) :
    ((self.CreateNew size w).ret = .error "fail to open"
      ∧ (self.CreateNew size w).world.trace
          = w.trace ++ [Event.shm_open self.name (O_RDWR ||| O_CREAT) (S_IRUSR ||| S_IWUSR) (-1)]
      ∧ (self.CreateNew size w).world.resources = w.resources)
    ∨ (∃ fd : Int, fd ≠ -1
      ∧ (self.CreateNew size w).ret = .error "Failed to truncate the file."
      ∧ (self.CreateNew size w).world.trace
          = w.trace ++ [Event.shm_open self.name (O_RDWR ||| O_CREAT) (S_IRUSR ||| S_IWUSR) fd,
              Event.AddResource self.name, Event.ftruncate fd size (-1)]
      ∧ (self.CreateNew size w).world.registered self.name = true)
    ∨ (∃ fd res : Int, fd ≠ -1 ∧ res ≠ -1
      ∧ (self.CreateNew size w).ret = .error "Failed to map shared memory."
      ∧ (self.CreateNew size w).world.trace
          = w.trace ++ [Event.shm_open self.name (O_RDWR ||| O_CREAT) (S_IRUSR ||| S_IWUSR) fd,
              Event.AddResource self.name, Event.ftruncate fd size res,
              Event.mmap nullptr size (PROT_READ ||| PROT_WRITE) MAP_SHARED fd 0 MAP_FAILED]
      ∧ (self.CreateNew size w).world.registered self.name = true)
    ∨ (∃ (fd res : Int) (p : Nat), fd ≠ -1 ∧ res ≠ -1 ∧ p ≠ MAP_FAILED
      ∧ (self.CreateNew size w).ret = .ok p
      ∧ (self.CreateNew size w).world.trace
          = w.trace ++ [Event.shm_open self.name (O_RDWR ||| O_CREAT) (S_IRUSR ||| S_IWUSR) fd,
              Event.AddResource self.name, Event.ftruncate fd size res,
              Event.mmap nullptr size (PROT_READ ||| PROT_WRITE) MAP_SHARED fd 0 p]
      ∧ (self.CreateNew size w).world.registered self.name = true) := by
  obtain ⟨_, _, _, hc⟩ := CreateNew_cases self size w
  rcases hc with h | ⟨fd, h1, he, ht, hr⟩ | ⟨fd, res, h1, h2, he, ht, hr⟩
      | ⟨fd, res, p, h1, h2, h3, he, _, _, ht, hr⟩
  · exact Or.inl h
  · refine Or.inr (Or.inl ⟨fd, h1, he, ht, ?_⟩)
    unfold World.registered; rw [hr]; exact any_added w self.name
  · refine Or.inr (Or.inr (Or.inl ⟨fd, res, h1, h2, he, ht, ?_⟩))
    unfold World.registered; rw [hr]; exact any_added w self.name
  · refine Or.inr (Or.inr (Or.inr ⟨fd, res, p, h1, h2, h3, he, ht, ?_⟩))
    unfold World.registered; rw [hr]; exact any_added w self.name

/-- C7. The size field after CreateNew: on an empty system, CreateNew(4096) on a
fresh handle named "graph-buf" returns the address 65536 with a valid
descriptor and own = true, and the size field of the handle is still the 0 the
constructor gave it, not 4096. -/
theorem CreateNew_leaves_size_field :
    ((SharedMemory.ctor "graph-buf").CreateNew 4096 ⟨Kernel.empty, [], []⟩).ret = .ok 65536
    ∧ ((SharedMemory.ctor "graph-buf").CreateNew 4096 ⟨Kernel.empty, [], []⟩).self
        = { name := "graph-buf", own := true, fd := 0, ptr := 65536, size := 0 }
    ∧ ((SharedMemory.ctor "graph-buf").CreateNew 4096 ⟨Kernel.empty, [], []⟩).self.size ≠ 4096 :=
  ⟨by rfl, by decide, by decide⟩

/-- C9. Fatal on OS failure, with the fatal check as an error result: CreateNew(size)
returns a mapping exactly when shm_open, ftruncate and mmap all succeed, and
ends in a fatal error exactly when one of them fails; Open(size) returns a
mapping exactly when shm_open and mmap both succeed, and ends in a fatal error
exactly when one of them fails; Exist(name) never ends in a fatal error: it
returns whether its read-only open succeeds (the object is present and
readable and a descriptor is free), so false when the object is absent. -/
theorem fatal_on_os_failure (self : SharedMemory) (size : Nat) (w : World) (name : String) :
    ((∃ p, (self.CreateNew size w).ret = .ok p) ↔
      ((w.kernel.shm_open self.name (O_RDWR ||| O_CREAT) (S_IRUSR ||| S_IWUSR)).1 ≠ -1
      ∧ ((w.kernel.shm_open self.name (O_RDWR ||| O_CREAT) (S_IRUSR ||| S_IWUSR)).2.ftruncate
          (w.kernel.shm_open self.name (O_RDWR ||| O_CREAT) (S_IRUSR ||| S_IWUSR)).1 size).1 ≠ -1
      ∧ (((w.kernel.shm_open self.name (O_RDWR ||| O_CREAT) (S_IRUSR ||| S_IWUSR)).2.ftruncate
          (w.kernel.shm_open self.name (O_RDWR ||| O_CREAT) (S_IRUSR ||| S_IWUSR)).1 size).2.mmap
            nullptr size (PROT_READ ||| PROT_WRITE) MAP_SHARED
            (w.kernel.shm_open self.name (O_RDWR ||| O_CREAT) (S_IRUSR ||| S_IWUSR)).1 0).1
          ≠ MAP_FAILED))
    ∧ ((∃ msg, (self.CreateNew size w).ret = .error msg) ↔
      ¬ ((w.kernel.shm_open self.name (O_RDWR ||| O_CREAT) (S_IRUSR ||| S_IWUSR)).1 ≠ -1
      ∧ ((w.kernel.shm_open self.name (O_RDWR ||| O_CREAT) (S_IRUSR ||| S_IWUSR)).2.ftruncate
          (w.kernel.shm_open self.name (O_RDWR ||| O_CREAT) (S_IRUSR ||| S_IWUSR)).1 size).1 ≠ -1
      ∧ (((w.kernel.shm_open self.name (O_RDWR ||| O_CREAT) (S_IRUSR ||| S_IWUSR)).2.ftruncate
          (w.kernel.shm_open self.name (O_RDWR ||| O_CREAT) (S_IRUSR ||| S_IWUSR)).1 size).2.mmap
            nullptr size (PROT_READ ||| PROT_WRITE) MAP_SHARED
            (w.kernel.shm_open self.name (O_RDWR ||| O_CREAT) (S_IRUSR ||| S_IWUSR)).1 0).1
          ≠ MAP_FAILED))
    ∧ ((∃ p, (self.Open size w).ret = .ok p) ↔
      ((w.kernel.shm_open self.name O_RDWR (S_IRUSR ||| S_IWUSR)).1 ≠ -1
      ∧ ((w.kernel.shm_open self.name O_RDWR (S_IRUSR ||| S_IWUSR)).2.mmap
            nullptr size (PROT_READ ||| PROT_WRITE) MAP_SHARED
            (w.kernel.shm_open self.name O_RDWR (S_IRUSR ||| S_IWUSR)).1 0).1 ≠ MAP_FAILED))
    ∧ ((∃ msg, (self.Open size w).ret = .error msg) ↔
      ¬ ((w.kernel.shm_open self.name O_RDWR (S_IRUSR ||| S_IWUSR)).1 ≠ -1
      ∧ ((w.kernel.shm_open self.name O_RDWR (S_IRUSR ||| S_IWUSR)).2.mmap
            nullptr size (PROT_READ ||| PROT_WRITE) MAP_SHARED
            (w.kernel.shm_open self.name O_RDWR (S_IRUSR ||| S_IWUSR)).1 0).1 ≠ MAP_FAILED))
    ∧ (SharedMemory.Exist name w).1
        = .ok (match w.kernel.lookup name with
               | some o => o.readable && w.kernel.hasFreeFd
               | none => false) := by
  have hC : ∀ (c1 c2 c3 : Prop) [Decidable c1] [Decidable c2] [Decidable c3]
      (a b c : String) (s1 s2 s3 s4 : SharedMemory) (w1 w2 w3 w4 : World) (q : Nat),
      ((∃ p, (if c1 then (⟨.error a, s1, w1⟩ : Outcome Nat) else
          if c2 then ⟨.error b, s2, w2⟩ else
          if c3 then ⟨.error c, s3, w3⟩ else ⟨.ok q, s4, w4⟩).ret = .ok p)
        ↔ (¬ c1 ∧ ¬ c2 ∧ ¬ c3))
      ∧ ((∃ msg, (if c1 then (⟨.error a, s1, w1⟩ : Outcome Nat) else
          if c2 then ⟨.error b, s2, w2⟩ else
          if c3 then ⟨.error c, s3, w3⟩ else ⟨.ok q, s4, w4⟩).ret = .error msg)
        ↔ ¬ (¬ c1 ∧ ¬ c2 ∧ ¬ c3)) := by
    intro c1 c2 c3 _ _ _ a b c s1 s2 s3 s4 w1 w2 w3 w4 q
    by_cases h1 : c1 <;> by_cases h2 : c2 <;> by_cases h3 : c3 <;> simp [h1, h2, h3]
  have hO : ∀ (c1 c3 : Prop) [Decidable c1] [Decidable c3]
      (a c : String) (s1 s3 s4 : SharedMemory) (w1 w3 w4 : World) (q : Nat),
      ((∃ p, (if c1 then (⟨.error a, s1, w1⟩ : Outcome Nat) else
          if c3 then ⟨.error c, s3, w3⟩ else ⟨.ok q, s4, w4⟩).ret = .ok p)
        ↔ (¬ c1 ∧ ¬ c3))
      ∧ ((∃ msg, (if c1 then (⟨.error a, s1, w1⟩ : Outcome Nat) else
          if c3 then ⟨.error c, s3, w3⟩ else ⟨.ok q, s4, w4⟩).ret = .error msg)
        ↔ ¬ (¬ c1 ∧ ¬ c3)) := by
    intro c1 c3 _ _ a c s1 s3 s4 w1 w3 w4 q
    by_cases h1 : c1 <;> by_cases h3 : c3 <;> simp [h1, h3]
  refine ⟨?_, ?_, ?_, ?_, Exist_ret name w⟩
  · exact (hC _ _ _ _ _ _ _ _ _ _ _ _ _ _ _).1
  · exact (hC _ _ _ _ _ _ _ _ _ _ _ _ _ _ _).2
  · exact (hO _ _ _ _ _ _ _ _ _ _ _).1
  · exact (hO _ _ _ _ _ _ _ _ _ _ _).2

/-- The descriptor of a handle whose CreateNew or Open returned is open. -/
theorem fd_open_of_ok (self : SharedMemory) (size : Nat) (w : World) (p : Nat) (o : Outcome Nat)
    (hmade : o = self.CreateNew size w ∨ o = self.Open size w) (hok : o.ret = .ok p) :
    (o.world.kernel.file o.self.fd).isSome = true := by
  rcases hmade with rfl | rfl
  · obtain ⟨h1, _, _, hs, hw, _⟩ := CreateNew_ok self size w p hok
    rw [hs, hw]
    have := Kernel.file_shm_open w.kernel self.name (O_RDWR ||| O_CREAT) (S_IRUSR ||| S_IWUSR) h1
    rw [← this]
    congr 1
    exact Kernel.file_congr ((Kernel.files_mmap _ _ _ _ _ _ _).trans (Kernel.files_ftruncate _ _ _)) _
  · obtain ⟨h1, _, hs, hw, _⟩ := Open_ok self size w p hok
    rw [hs, hw]
    have := Kernel.file_shm_open w.kernel self.name O_RDWR (S_IRUSR ||| S_IWUSR) h1
    rw [← this]
    congr 1
    exact Kernel.file_congr (Kernel.files_mmap _ _ _ _ _ _ _) _

/-- C10 as amended. The destructor of a handle that was never opened issues
munmap(nullptr, 0) and close(-1); both fail and the operating system is left as
it was. The destructor of a handle whose CreateNew(size) or Open(size) returned
issues munmap with the pointer and the size field of the handle, then a close
of its descriptor that succeeds, then, for an owner, shm_unlink and
DeleteResource; afterwards the descriptor of the handle is not open. -/
theorem destroy_releases_descriptor (name : String) (w : World) :
    (((SharedMemory.ctor name).dtor w).kernel = w.kernel
      ∧ ((SharedMemory.ctor name).dtor w).trace
          = w.trace ++ [Event.munmap nullptr 0 (-1), Event.close (-1) (-1)])
    ∧ ∀ (size p : Nat) (o : Outcome Nat),
        (o = (SharedMemory.ctor name).CreateNew size w ∨ o = (SharedMemory.ctor name).Open size w) →
        o.ret = .ok p →
        (∃ r u : Int, (o.self.dtor o.world).trace
            = o.world.trace ++ [Event.munmap o.self.ptr o.self.size r, Event.close o.self.fd 0]
              ++ (if o.self.own then [Event.shm_unlink o.self.name u,
                    Event.DeleteResource o.self.name] else []))
        ∧ (o.self.dtor o.world).kernel.file o.self.fd = none := by
  refine ⟨⟨?_, ?_⟩, ?_⟩
  · have h1 : (w.kernel.munmap nullptr 0) = (-1, w.kernel) := by
      unfold Kernel.munmap; simp
    have h2 : (w.kernel.close (-1)) = (-1, w.kernel) := by
      unfold Kernel.close; rw [Kernel.file_neg _ _ (by decide)]
    simp only [SharedMemory.dtor, SharedMemory.ctor, munmap, close, h1, h2]
    rfl
  · have h1 : (w.kernel.munmap nullptr 0) = (-1, w.kernel) := by
      unfold Kernel.munmap; simp
    have h2 : (w.kernel.close (-1)) = (-1, w.kernel) := by
      unfold Kernel.close; rw [Kernel.file_neg _ _ (by decide)]
    rw [dtor_trace]
    simp only [SharedMemory.ctor, h1, h2]
    simp
  · intro size p o hmade hok
    have hopen := fd_open_of_ok _ size w p o hmade hok
    have hopen' : (((o.world.kernel.munmap o.self.ptr o.self.size).2).file o.self.fd).isSome = true := by
      rw [Kernel.file_congr (Kernel.files_munmap _ _ _)]; exact hopen
    obtain ⟨hnone, hzero⟩ := Kernel.file_close (o.world.kernel.munmap o.self.ptr o.self.size).2 o.self.fd
    constructor
    · refine ⟨(o.world.kernel.munmap o.self.ptr o.self.size).1,
        (((o.world.kernel.munmap o.self.ptr o.self.size).2.close o.self.fd).2.shm_unlink
          o.self.name).1, ?_⟩
      rw [dtor_trace, hzero hopen']
    · rw [Kernel.file_congr (dtor_files o.self o.world)]
      exact hnone

theorem destroy_releases_descriptor_witness :
    ((SharedMemory.ctor "graph-buf").CreateNew 4096 ⟨Kernel.empty, [], []⟩).ret = .ok 65536
    ∧ (((SharedMemory.ctor "graph-buf").CreateNew 4096 ⟨Kernel.empty, [], []⟩).self.dtor
        ((SharedMemory.ctor "graph-buf").CreateNew 4096 ⟨Kernel.empty, [], []⟩).world).kernel.file
          ((SharedMemory.ctor "graph-buf").CreateNew 4096 ⟨Kernel.empty, [], []⟩).self.fd = none :=
  ⟨by rfl,
   ((destroy_releases_descriptor "graph-buf" ⟨Kernel.empty, [], []⟩).2 4096 65536 _
      (Or.inl rfl) (by rfl)).2⟩

/-- C10 as stated fails: the destructor of a handle that was never opened does
issue a munmap and a close; and after CreateNew(4096) on an empty system the
destructor issues munmap with length 0, which fails, so the page mapped by
CreateNew is still mapped afterwards. -/
theorem destroy_unmap_counterexample :
    ((SharedMemory.ctor "graph-buf").dtor ⟨Kernel.empty, [], []⟩).trace
        = [Event.munmap 0 0 (-1), Event.close (-1) (-1)]
    ∧ (((SharedMemory.ctor "graph-buf").CreateNew 4096 ⟨Kernel.empty, [], []⟩).self.dtor
        ((SharedMemory.ctor "graph-buf").CreateNew 4096 ⟨Kernel.empty, [], []⟩).world).trace
        = [Event.shm_open "graph-buf" 66 384 0, Event.AddResource "graph-buf",
           Event.ftruncate 0 4096 0, Event.mmap 0 4096 3 1 0 0 65536,
           Event.munmap 65536 0 (-1), Event.close 0 0,
           Event.shm_unlink "graph-buf" 0, Event.DeleteResource "graph-buf"]
    ∧ (((SharedMemory.ctor "graph-buf").CreateNew 4096 ⟨Kernel.empty, [], []⟩).self.dtor
        ((SharedMemory.ctor "graph-buf").CreateNew 4096 ⟨Kernel.empty, [], []⟩).world).kernel.pages
        = [⟨16, 1⟩] :=
  ⟨by decide, by decide, by decide⟩

theorem Process.handle_eq (p : Process) (h : Nat) :
    p.handle h = (p.handles[h]?).getD none := by
  simp [Process.handle]

/-- The handle in a slot after a member function ran on the handle in slot i. -/
theorem Process.handle_after (p : Process) (i : Nat) (o : Outcome Nat) (s : SharedMemory)
    (hs : p.handle i = some s) (j : Nat) :
    (p.after i o).handle j = if i = j then some o.self else p.handle j := by
  have hi : i < p.handles.length := by
    by_contra hc
    rw [Process.handle_eq, List.getElem?_eq_none (by omega)] at hs
    cases hs
  simp only [Process.handle_eq, Process.after, List.getElem?_set]
  by_cases hij : i = j
  · subst hij
    simp [hi]
  · simp [hij]

/-- The handle in a slot after the destructor ran on slot i. -/
theorem Process.handle_destroyed (p : Process) (i : Nat) (w : World) (j : Nat) :
    ({ p with world := w, handles := p.handles.set i none } : Process).handle j
      = if i = j then none else p.handle j := by
  simp only [Process.handle_eq, List.getElem?_set]
  by_cases hij : i = j
  · subst hij
    by_cases hi : i < p.handles.length <;> simp [hi]
  · simp [hij]

/-- The handle in a slot after a constructor ran. -/
theorem Process.handle_constructed (p : Process) (s : SharedMemory) (j : Nat) :
    ({ p with handles := p.handles ++ [some s] } : Process).handle j
      = if j = p.handles.length then some s else p.handle j := by
  simp only [Process.handle_eq, List.getElem?_append]
  by_cases hj : j < p.handles.length
  · simp [hj, Nat.ne_of_lt hj]
  · by_cases he : j = p.handles.length
    · simp [he]
    · have : p.handles.length ≤ j := by omega
      have h1 : j - p.handles.length ≠ 0 := by omega
      obtain ⟨m, hm⟩ := Nat.exists_eq_succ_of_ne_zero h1
      simp [hj, he, List.getElem?_eq_none this, hm]

/-- C8 as amended. In every state of a process, a handle that is an owner after
an operation and was not one before it (or did not exist before it) was the
target of that operation, and the operation was CreateNew: isOwner becomes
true only by a CreateNew call on the handle itself. Whether the object existed
before the call plays no part, and nothing keeps two live handles of one name
from both being owners. -/
theorem owner_only_by_CreateNew (p : Process) (op : Op) (h : Nat) (s' : SharedMemory)
    (hafter : (p.step op).handle h = some s') (hown : s'.own = true)
    (hbefore : ∀ s, p.handle h = some s → s.own = false) :
    ∃ size, op = Op.CreateNew h size := by
  have contra : p.handle h = some s' → False := fun hh => by
    have := hbefore s' hh
    rw [hown] at this
    cases this
  unfold Process.step at hafter
  by_cases hd : p.dead = true
  · rw [if_pos hd] at hafter
    exact (contra hafter).elim
  rw [if_neg hd] at hafter
  cases op with
  | Construct name =>
    simp only at hafter
    rw [Process.handle_constructed] at hafter
    split at hafter
    · injection hafter with hafter
      rw [← hafter] at hown
      cases hown
    · exact (contra hafter).elim
  | CreateNew i size =>
    simp only at hafter
    cases hs : p.handle i with
    | none =>
      simp only [hs] at hafter
      exact (contra hafter).elim
    | some s =>
      simp only [hs] at hafter
      rw [Process.handle_after p i _ s hs] at hafter
      by_cases hij : i = h
      · exact ⟨size, by rw [hij]⟩
      · rw [if_neg hij] at hafter
        exact (contra hafter).elim
  | Open i size =>
    simp only at hafter
    cases hs : p.handle i with
    | none =>
      simp only [hs] at hafter
      exact (contra hafter).elim
    | some s =>
      simp only [hs] at hafter
      rw [Process.handle_after p i _ s hs] at hafter
      by_cases hij : i = h
      · rw [if_pos hij] at hafter
        injection hafter with hafter
        have h1 := (Open_frame s size p.world).2.1
        rw [hafter, hown] at h1
        have h2 := hbefore s (hij ▸ hs)
        rw [h2] at h1
        cases h1
      · rw [if_neg hij] at hafter
        exact (contra hafter).elim
  | Destroy i =>
    simp only at hafter
    cases hs : p.handle i with
    | none =>
      simp only [hs] at hafter
      exact (contra hafter).elim
    | some s =>
      simp only [hs] at hafter
      rw [Process.handle_destroyed] at hafter
      by_cases hij : i = h
      · rw [if_pos hij] at hafter
        cases hafter
      · rw [if_neg hij] at hafter
        exact (contra hafter).elim

theorem owner_only_by_CreateNew_witness :
    (((Process.start Kernel.empty).run [Op.Construct "graph-buf"]).step (Op.CreateNew 0 4096)).handle 0
        = some ⟨"graph-buf", true, 0, 65536, 0⟩
    ∧ ∃ size, Op.CreateNew 0 4096 = Op.CreateNew 0 size :=
  ⟨by decide,
   owner_only_by_CreateNew ((Process.start Kernel.empty).run [Op.Construct "graph-buf"])
     (Op.CreateNew 0 4096) 0 ⟨"graph-buf", true, 0, 65536, 0⟩ (by decide) rfl
     (fun s hs => by
       have h0 : ((Process.start Kernel.empty).run [Op.Construct "graph-buf"]).handle 0
           = some (SharedMemory.ctor "graph-buf") := by decide
       rw [h0] at hs
       injection hs with hs
       rw [← hs]
       rfl)⟩

/-- C8 as stated fails. Two handles of one process constructed with the name
"graph-buf" both call CreateNew(4096): both calls return and both live handles
are owners. And on a system where the object "graph-buf" already exists,
CreateNew(4096) returns with own = true although the call did not bring the
object into existence. -/
theorem unique_owner_counterexample :
    (((Process.start Kernel.empty).run
        [Op.Construct "graph-buf", Op.Construct "graph-buf",
         Op.CreateNew 0 4096, Op.CreateNew 1 4096]).dead = false
      ∧ ((Process.start Kernel.empty).run
        [Op.Construct "graph-buf", Op.Construct "graph-buf",
         Op.CreateNew 0 4096, Op.CreateNew 1 4096]).handles
        = [some ⟨"graph-buf", true, 0, 65536, 0⟩, some ⟨"graph-buf", true, 1, 69632, 0⟩])
    ∧ ((Kernel.shared.lookup "graph-buf").isSome = true
      ∧ ((SharedMemory.ctor "graph-buf").CreateNew 4096 ⟨Kernel.shared, [], []⟩).ret = .ok 65536
      ∧ ((SharedMemory.ctor "graph-buf").CreateNew 4096 ⟨Kernel.shared, [], []⟩).self.own = true
      ∧ ((SharedMemory.ctor "graph-buf").CreateNew 4096 ⟨Kernel.shared, [], []⟩).world.kernel.objects
          = [⟨"graph-buf", 1, 4096, true, true, true⟩]) :=
  ⟨⟨by decide, by decide⟩, by decide, by rfl, by decide, by decide⟩

theorem countP_set_slot (P : Option SharedMemory → Bool) (l : List (Option SharedMemory))
    (i : Nat) (x : Option SharedMemory) (s : SharedMemory)
    (h : (l[i]?).getD none = some s) :
    (l.set i x).countP P + (if P (some s) then 1 else 0)
      = l.countP P + (if P x then 1 else 0)
    ∧ (if P (some s) then 1 else 0) ≤ l.countP P := by
  have hi : i < l.length := by
    by_contra hc
    rw [List.getElem?_eq_none (by omega)] at h
    cases h
  have hs : l[i] = some s := by
    rw [List.getElem?_eq_getElem hi] at h
    exact h
  have h1 := List.countP_set P l i x hi
  have h2 := List.boole_getElem_le_countP P l i hi
  rw [hs] at h1 h2
  exact ⟨by omega, h2⟩

theorem keyCount_added (w : World) (m name : String) :
    (m = name → keyCount name w.resources ≤ 1 → keyCount name (w.added m) = 1)
    ∧ (m ≠ name → keyCount name (w.added m) = keyCount name w.resources) := by
  unfold World.added World.registered keyCount
  constructor
  · intro hm hle
    subst hm
    by_cases ha : (w.resources.any (fun e => e.1 == m)) = true
    · rw [if_pos ha]
      have : 0 < List.countP (fun e => e.1 == m) w.resources := by
        rw [List.countP_pos_iff]
        simpa using ha
      omega
    · rw [if_neg ha]
      have : List.countP (fun e => e.1 == m) w.resources = 0 := by
        rw [List.countP_eq_zero]
        intro e he hp
        exact ha (List.any_eq_true.mpr ⟨e, he, hp⟩)
      simp [this]
  · intro hm
    by_cases ha : (w.resources.any (fun e => e.1 == m)) = true
    · rw [if_pos ha]
    · rw [if_neg ha]
      simp [hm]

theorem resourcesOk_added (w : World) (m : String) (hok : w.resourcesOk) :
    ∀ e ∈ w.added m, e.2.name = e.1 := by
  unfold World.added
  intro e he
  split at he
  · exact hok e he
  · rcases List.mem_append.mp he with h | h
    · exact hok e h
    · simp at h
      rw [h]

theorem keyCount_filter (l : List (String × SharedMemoryResource)) (m name : String) :
    (m = name → keyCount name (l.filter (fun e => !(e.1 == m))) = 0)
    ∧ (m ≠ name → keyCount name (l.filter (fun e => !(e.1 == m))) = keyCount name l) := by
  unfold keyCount
  constructor
  · intro hm
    subst hm
    rw [List.countP_eq_zero]
    intro e he
    have := (List.mem_filter.mp he).2
    simpa using this
  · intro hm
    rw [List.countP_filter]
    congr 1
    funext e
    by_cases he : e.1 = name
    · have : ¬ name = m := fun h => hm h.symm
      simp [he, this]
    · simp [he]

/-- What CreateNew adds to the counts of calls. -/
theorem CreateNew_counts (self : SharedMemory) (size : Nat) (w : World) (name : String) :
    unlinks name (self.CreateNew size w).world.trace = unlinks name w.trace
    ∧ (((∃ msg, (self.CreateNew size w).ret = .error msg)
        ∧ registrations name (self.CreateNew size w).world.trace = registrations name w.trace
        ∧ (self.CreateNew size w).world.resources = w.resources)
      ∨ (registrations name (self.CreateNew size w).world.trace
          = registrations name w.trace + (if self.name = name then 1 else 0)
        ∧ (self.CreateNew size w).world.resources = w.added self.name)) := by
  obtain ⟨_, _, _, hc⟩ := CreateNew_cases self size w
  rcases hc with ⟨he, ht, hr⟩ | ⟨fd, _, he, ht, hr⟩ | ⟨fd, res, _, _, he, ht, hr⟩
      | ⟨fd, res, p, _, _, _, he, _, _, ht, hr⟩
  · refine ⟨?_, Or.inl ⟨⟨_, he⟩, ?_, hr⟩⟩ <;>
      simp [ht, unlinks, registrations, List.countP_cons]
  · refine ⟨?_, Or.inr ⟨?_, hr⟩⟩ <;>
      simp [ht, unlinks, registrations, List.countP_cons]
  · refine ⟨?_, Or.inr ⟨?_, hr⟩⟩ <;>
      simp [ht, unlinks, registrations, List.countP_cons]
  · refine ⟨?_, Or.inr ⟨?_, hr⟩⟩ <;>
      simp [ht, unlinks, registrations, List.countP_cons]

/-- What the destructor adds to the counts of calls. -/
theorem dtor_counts (self : SharedMemory) (w : World) (name : String) :
    unlinks name (self.dtor w).trace
      = unlinks name w.trace + (if self.own = true ∧ self.name = name then 1 else 0)
    ∧ registrations name (self.dtor w).trace = registrations name w.trace := by
  rw [dtor_trace]
  cases self.own <;>
    simp [unlinks, registrations, List.countP_cons]

/-- What the cleanup of the resource manager adds to the counts of calls. -/
theorem Cleanup_counts (name : String) (l : List (String × SharedMemoryResource)) (w : World) :
    unlinks name (l.foldl (fun v e => e.2.Destroy v) w).trace
      = unlinks name w.trace + l.countP (fun e => e.2.name == name)
    ∧ registrations name (l.foldl (fun v e => e.2.Destroy v) w).trace
      = registrations name w.trace := by
  induction l generalizing w with
  | nil => simp
  | cons e t ih =>
    obtain ⟨h1, h2⟩ := ih (e.2.Destroy w)
    rw [List.foldl_cons, h1, h2]
    have ht : (e.2.Destroy w).trace
        = w.trace ++ [Event.shm_unlink e.2.name (w.kernel.shm_unlink e.2.name).1] := rfl
    rw [ht]
    constructor
    · simp only [unlinks, List.countP_append, List.countP_cons, List.countP_nil]
      omega
    · simp [registrations, List.countP_cons]

theorem countP_name_eq_key (name : String) (l : List (String × SharedMemoryResource))
    (hl : ∀ e ∈ l, e.2.name = e.1) :
    l.countP (fun e => e.2.name == name) = keyCount name l := by
  unfold keyCount
  induction l with
  | nil => rfl
  | cons e t ih =>
    rw [List.countP_cons, List.countP_cons, ih (fun e he => hl e (List.mem_cons_of_mem _ he)),
      hl e (List.mem_cons_self _ _)]

theorem Inv_start (name : String) (k : Kernel) : Inv name (Process.start k) where
  ok := fun _ he => (nomatch he)
  single := by simp [Process.start, keyCount]
  budget := by simp [Process.start, keyCount, unlinks, registrations]
  live := fun _ => by simp [Process.start, keyCount, unlinks, registrations, liveOwners]

theorem Inv_Construct (name nm : String) (p : Process) (inv : Inv name p) :
    Inv name { p with handles := p.handles ++ [some (SharedMemory.ctor nm)] } where
  ok := inv.ok
  single := inv.single
  budget := inv.budget
  live := fun hd => by
    have h := inv.live hd
    have : liveOwners name (p.handles ++ [some (SharedMemory.ctor nm)])
        = liveOwners name p.handles := by
      simp [liveOwners, List.countP_cons, isOwnerOf, SharedMemory.ctor]
    show _ + liveOwners name (p.handles ++ [some (SharedMemory.ctor nm)]) ≤ _ ∧ (_ → 1 ≤ liveOwners name (p.handles ++ [some (SharedMemory.ctor nm)]))
    rw [this]
    exact h

theorem Inv_CreateNew (name : String) (p : Process) (i size : Nat) (s : SharedMemory)
    (hd : p.dead = false) (hs : p.handle i = some s) (inv : Inv name p) :
    Inv name (p.after i (s.CreateNew size p.world)) := by
  obtain ⟨hname, hown, _, _⟩ := CreateNew_cases s size p.world
  obtain ⟨hu, hc⟩ := CreateNew_counts s size p.world name
  obtain ⟨L1, L2⟩ := inv.live hd
  have hB := inv.budget
  have hS := inv.single
  rcases hc with ⟨⟨msg, he⟩, hr, hres⟩ | ⟨hr, hres⟩
  · refine ⟨?_, ?_, ?_, ?_⟩
    · intro e hmem
      have hmem' : e ∈ (s.CreateNew size p.world).world.resources := hmem
      rw [hres] at hmem'
      exact inv.ok e hmem'
    · show keyCount name (s.CreateNew size p.world).world.resources ≤ 1
      rw [hres]; exact hS
    · show unlinks name (s.CreateNew size p.world).world.trace
        + keyCount name (s.CreateNew size p.world).world.resources
        ≤ registrations name (s.CreateNew size p.world).world.trace
      rw [hres, hu, hr]; exact hB
    · intro hdead
      have : (p.after i (s.CreateNew size p.world)).dead = true := by
        simp [Process.after, he]
      rw [this] at hdead
      cases hdead
  · have hkey := keyCount_added p.world s.name name
    obtain ⟨hslot, hmem⟩ := countP_set_slot (isOwnerOf name) p.handles i
      (some (s.CreateNew size p.world).self) s (by rw [← Process.handle_eq]; exact hs)
    have hnew : isOwnerOf name (some (s.CreateNew size p.world).self) = (s.name == name) := by
      simp [isOwnerOf, hown, hname]
    refine ⟨?_, ?_, ?_, ?_⟩
    · intro e hmem
      have hmem' : e ∈ (s.CreateNew size p.world).world.resources := hmem
      rw [hres] at hmem'
      exact resourcesOk_added p.world s.name inv.ok e hmem'
    · show keyCount name (s.CreateNew size p.world).world.resources ≤ 1
      rw [hres]
      by_cases hn : s.name = name
      · rw [hkey.1 hn hS]
      · rw [hkey.2 hn]; exact hS
    · show unlinks name (s.CreateNew size p.world).world.trace
        + keyCount name (s.CreateNew size p.world).world.resources
        ≤ registrations name (s.CreateNew size p.world).world.trace
      rw [hres, hu, hr]
      by_cases hn : s.name = name
      · rw [hkey.1 hn hS, if_pos hn]; omega
      · rw [hkey.2 hn, if_neg hn]; omega
    · intro _
      show unlinks name (s.CreateNew size p.world).world.trace
          + liveOwners name (p.handles.set i (some (s.CreateNew size p.world).self))
          ≤ registrations name (s.CreateNew size p.world).world.trace
        ∧ (1 ≤ keyCount name (s.CreateNew size p.world).world.resources
          → 1 ≤ liveOwners name (p.handles.set i (some (s.CreateNew size p.world).self)))
      rw [hres, hu, hr]
      unfold liveOwners at L1 L2 ⊢
      rw [hnew] at hslot
      by_cases hn : s.name = name
      · have h1 : (s.name == name) = true := by simp [hn]
        rw [h1] at hslot
        rw [hkey.1 hn hS, if_pos hn]
        simp only [if_true] at hslot
        have hle : (if isOwnerOf name (some s) = true then 1 else 0) ≤ 1 := by
          split <;> omega
        constructor
        · omega
        · intro _
          omega
      · have h1 : (s.name == name) = false := by simp [hn]
        have h2 : isOwnerOf name (some s) = false := by simp [isOwnerOf, h1]
        rw [h1, h2] at hslot
        rw [hkey.2 hn, if_neg hn]
        simp only [Bool.false_eq_true, if_false] at hslot
        constructor
        · omega
        · intro hk
          have := L2 hk
          omega

theorem Inv_Open (name : String) (p : Process) (i size : Nat) (s : SharedMemory)
    (hd : p.dead = false) (hs : p.handle i = some s) (inv : Inv name p) :
    Inv name (p.after i (s.Open size p.world)) := by
  obtain ⟨hname, hown, _, hres, hu, hr⟩ := Open_frame s size p.world
  obtain ⟨L1, L2⟩ := inv.live hd
  obtain ⟨hslot, hmem⟩ := countP_set_slot (isOwnerOf name) p.handles i
    (some (s.Open size p.world).self) s (by rw [← Process.handle_eq]; exact hs)
  have hnew : isOwnerOf name (some (s.Open size p.world).self) = isOwnerOf name (some s) := by
    simp [isOwnerOf, hown, hname]
  rw [hnew] at hslot
  refine ⟨?_, ?_, ?_, ?_⟩
  · intro e hmem
    have hmem' : e ∈ (s.Open size p.world).world.resources := hmem
    rw [hres] at hmem'
    exact inv.ok e hmem'
  · show keyCount name (s.Open size p.world).world.resources ≤ 1
    rw [hres]; exact inv.single
  · show unlinks name (s.Open size p.world).world.trace
      + keyCount name (s.Open size p.world).world.resources
      ≤ registrations name (s.Open size p.world).world.trace
    rw [hres, hu, hr]; exact inv.budget
  · intro _
    show unlinks name (s.Open size p.world).world.trace
        + liveOwners name (p.handles.set i (some (s.Open size p.world).self))
        ≤ registrations name (s.Open size p.world).world.trace
      ∧ (1 ≤ keyCount name (s.Open size p.world).world.resources
        → 1 ≤ liveOwners name (p.handles.set i (some (s.Open size p.world).self)))
    rw [hres, hu, hr]
    unfold liveOwners at L1 L2 ⊢
    have : List.countP (isOwnerOf name) (p.handles.set i (some (s.Open size p.world).self))
        = List.countP (isOwnerOf name) p.handles := by omega
    rw [this]
    exact ⟨L1, L2⟩

theorem Inv_Destroy (name : String) (p : Process) (i : Nat) (s : SharedMemory)
    (hd : p.dead = false) (hs : p.handle i = some s) (inv : Inv name p) :
    Inv name { p with world := s.dtor p.world, handles := p.handles.set i none } := by
  obtain ⟨hu, hr⟩ := dtor_counts s p.world name
  have hres := dtor_resources s p.world
  obtain ⟨L1, L2⟩ := inv.live hd
  have hB := inv.budget
  have hS := inv.single
  obtain ⟨hslot, hmem⟩ := countP_set_slot (isOwnerOf name) p.handles i none s
    (by rw [← Process.handle_eq]; exact hs)
  have hnone : isOwnerOf name none = false := rfl
  rw [hnone] at hslot
  simp only [Bool.false_eq_true, if_false, Nat.add_zero] at hslot
  have hkey := keyCount_filter p.world.resources s.name name
  unfold liveOwners at L1 L2
  refine ⟨?_, ?_, ?_, ?_⟩
  · intro e hmem
    have hmem' : e ∈ (s.dtor p.world).resources := hmem
    rw [hres] at hmem'
    split at hmem'
    · exact inv.ok e (List.mem_filter.mp hmem').1
    · exact inv.ok e hmem'
  · show keyCount name (s.dtor p.world).resources ≤ 1
    rw [hres]
    split
    · by_cases hn : s.name = name
      · rw [hkey.1 hn]; omega
      · rw [hkey.2 hn]; exact hS
    · exact hS
  · show unlinks name (s.dtor p.world).trace + keyCount name (s.dtor p.world).resources
      ≤ registrations name (s.dtor p.world).trace
    rw [hres, hu, hr]
    by_cases ho : s.own = true
    · rw [if_pos ho]
      by_cases hn : s.name = name
      · have hP : isOwnerOf name (some s) = true := by simp [isOwnerOf, ho, hn]
        rw [hP] at hslot
        simp only [if_true] at hslot
        rw [hkey.1 hn, if_pos ⟨ho, hn⟩]
        omega
      · rw [hkey.2 hn, if_neg (fun h => hn h.2)]
        omega
    · rw [if_neg ho, if_neg (fun h => ho h.1)]
      omega
  · intro _
    show unlinks name (s.dtor p.world).trace + liveOwners name (p.handles.set i none)
        ≤ registrations name (s.dtor p.world).trace
      ∧ (1 ≤ keyCount name (s.dtor p.world).resources
        → 1 ≤ liveOwners name (p.handles.set i none))
    unfold liveOwners
    rw [hres, hu, hr]
    by_cases ho : s.own = true
    · rw [if_pos ho]
      by_cases hn : s.name = name
      · have hP : isOwnerOf name (some s) = true := by simp [isOwnerOf, ho, hn]
        rw [hP] at hslot
        simp only [if_true] at hslot
        rw [hkey.1 hn, if_pos ⟨ho, hn⟩]
        omega
      · have hP : isOwnerOf name (some s) = false := by simp [isOwnerOf, hn]
        rw [hP] at hslot
        simp only [Bool.false_eq_true, if_false] at hslot
        rw [hkey.2 hn, if_neg (fun h => hn h.2)]
        constructor
        · omega
        · intro hk
          have := L2 hk
          omega
    · have hP : isOwnerOf name (some s) = false := by simp [isOwnerOf, ho]
      rw [hP] at hslot
      simp only [Bool.false_eq_true, if_false] at hslot
      rw [if_neg ho, if_neg (fun h => ho h.1)]
      constructor
      · omega
      · intro hk
        have := L2 hk
        omega

theorem Inv_step (name : String) (p : Process) (op : Op) (inv : Inv name p) :
    Inv name (p.step op) := by
  unfold Process.step
  by_cases hd : p.dead = true
  · rw [if_pos hd]; exact inv
  rw [if_neg hd]
  have hd' : p.dead = false := by simpa using hd
  cases op with
  | Construct nm => exact Inv_Construct name nm p inv
  | CreateNew i size =>
    simp only
    cases hs : p.handle i with
    | none => exact inv
    | some s => exact Inv_CreateNew name p i size s hd' hs inv
  | Open i size =>
    simp only
    cases hs : p.handle i with
    | none => exact inv
    | some s => exact Inv_Open name p i size s hd' hs inv
  | Destroy i =>
    simp only
    cases hs : p.handle i with
    | none => exact inv
    | some s => exact Inv_Destroy name p i s hd' hs inv

theorem Inv_run (name : String) (ops : List Op) (p : Process) (inv : Inv name p) :
    Inv name (p.run ops) := by
  induction ops generalizing p with
  | nil => exact inv
  | cons op t ih => exact ih (p.step op) (Inv_step name p op inv)

/-- Every state a process reaches from its start has a well keyed registry. -/
theorem resourcesOk_run (k : Kernel) (ops : List Op) :
    ((Process.start k).run ops).world.resourcesOk :=
  (Inv_run "" ops (Process.start k) (Inv_start "" k)).ok

/-- C4 as amended. After any sequence of handle operations of a process followed
by the cleanup of the resource manager, the shm_unlink calls issued for a name
are at most as many as the AddResource calls issued for it, one per CreateNew
on a handle of that name that opened the object: at most one when there is one
such CreateNew. And once the destructor of a live owner of the name has run in
a state so reached, the cleanup issues no shm_unlink for the name. -/
theorem single_reclamation (k : Kernel) (ops : List Op) (name : String) :
    unlinks name (Cleanup ((Process.start k).run ops).world).trace
      ≤ registrations name (Cleanup ((Process.start k).run ops).world).trace
    ∧ ∀ (h : Nat) (s : SharedMemory),
        ((Process.start k).run ops).handle h = some s → s.own = true → s.name = name →
        unlinks name (Cleanup (s.dtor ((Process.start k).run ops).world)).trace
          = unlinks name (s.dtor ((Process.start k).run ops).world).trace := by
  have inv := Inv_run name ops (Process.start k) (Inv_start name k)
  constructor
  · obtain ⟨h1, h2⟩ := Cleanup_counts name ((Process.start k).run ops).world.resources
      ((Process.start k).run ops).world
    show unlinks name (List.foldl (fun v (e : String × SharedMemoryResource) => e.2.Destroy v)
        ((Process.start k).run ops).world ((Process.start k).run ops).world.resources).trace
      ≤ registrations name (List.foldl (fun v (e : String × SharedMemoryResource) => e.2.Destroy v)
        ((Process.start k).run ops).world ((Process.start k).run ops).world.resources).trace
    rw [h1, h2, countP_name_eq_key name _ inv.ok]
    exact inv.budget
  · intro h s _ hown hname
    obtain ⟨h1, _⟩ := Cleanup_counts name (s.dtor ((Process.start k).run ops).world).resources
      (s.dtor ((Process.start k).run ops).world)
    show unlinks name (List.foldl (fun v (e : String × SharedMemoryResource) => e.2.Destroy v)
        (s.dtor ((Process.start k).run ops).world)
        (s.dtor ((Process.start k).run ops).world).resources).trace = _
    rw [h1]
    have hok : ∀ e ∈ (s.dtor ((Process.start k).run ops).world).resources, e.2.name = e.1 := by
      intro e he
      rw [dtor_resources, if_pos hown] at he
      exact inv.ok e (List.mem_filter.mp he).1
    rw [countP_name_eq_key name _ hok, dtor_resources, if_pos hown,
      (keyCount_filter _ s.name name).1 hname]
    rfl

theorem single_reclamation_witness :
    ((Process.start Kernel.empty).run [Op.Construct "graph-buf", Op.CreateNew 0 4096]).handle 0
        = some ⟨"graph-buf", true, 0, 65536, 0⟩
    ∧ unlinks "graph-buf" (Cleanup ((⟨"graph-buf", true, 0, 65536, 0⟩ : SharedMemory).dtor
        ((Process.start Kernel.empty).run
          [Op.Construct "graph-buf", Op.CreateNew 0 4096]).world)).trace
        = unlinks "graph-buf" ((⟨"graph-buf", true, 0, 65536, 0⟩ : SharedMemory).dtor
        ((Process.start Kernel.empty).run
          [Op.Construct "graph-buf", Op.CreateNew 0 4096]).world).trace :=
  ⟨by decide,
   (single_reclamation Kernel.empty [Op.Construct "graph-buf", Op.CreateNew 0 4096]
      "graph-buf").2 0 ⟨"graph-buf", true, 0, 65536, 0⟩ (by decide) rfl rfl⟩

/-- C4 as stated fails. Two handles of one process are constructed with the name
"graph-buf", both call CreateNew(4096), and both are destroyed: each destructor
issues shm_unlink("graph-buf"), so with the cleanup that follows the delete of
the object named "graph-buf" has been issued twice. -/
theorem single_reclamation_counterexample :
    unlinks "graph-buf" (Cleanup ((Process.start Kernel.empty).run
        [Op.Construct "graph-buf", Op.Construct "graph-buf",
         Op.CreateNew 0 4096, Op.CreateNew 1 4096,
         Op.Destroy 0, Op.Destroy 1]).world).trace = 2
    ∧ (Cleanup ((Process.start Kernel.empty).run
        [Op.Construct "graph-buf", Op.Construct "graph-buf",
         Op.CreateNew 0 4096, Op.CreateNew 1 4096,
         Op.Destroy 0, Op.Destroy 1]).world).trace
      = [Event.shm_open "graph-buf" 66 384 0, Event.AddResource "graph-buf",
         Event.ftruncate 0 4096 0, Event.mmap 0 4096 3 1 0 0 65536,
         Event.shm_open "graph-buf" 66 384 1, Event.AddResource "graph-buf",
         Event.ftruncate 1 4096 0, Event.mmap 0 4096 3 1 1 0 69632,
         Event.munmap 65536 0 (-1), Event.close 0 0,
         Event.shm_unlink "graph-buf" 0, Event.DeleteResource "graph-buf",
         Event.munmap 69632 0 (-1), Event.close 1 0,
         Event.shm_unlink "graph-buf" (-1), Event.DeleteResource "graph-buf"]
    ∧ ¬ (unlinks "graph-buf" (Cleanup ((Process.start Kernel.empty).run
        [Op.Construct "graph-buf", Op.Construct "graph-buf",
         Op.CreateNew 0 4096, Op.CreateNew 1 4096,
         Op.Destroy 0, Op.Destroy 1]).world).trace ≤ 1) :=
  ⟨by decide, by decide, by decide⟩

end dgl.runtime
